import Mathlib

/-!
Verification of the simulation core of the `consumer_choice_metamodel` crate:
the `ConsumerChoiceModel` lifecycle state machine (`src/model.rs`), the
`Environment` update cycle (`src/environment.rs`), the `Transformer`
information pipeline (`src/information.rs`), the `ConsumerAgent` choice
bookkeeping (`src/agent.rs`) and the attribute validator (`src/utils.rs`).

Conventions of the embedding:
* `f64` simulation times and attribute values are embedded as `Rat`; the
  claims under study evaluate the arithmetic at exactly representable values.
* Rust `HashMap`s are embedded as association lists (`List (key × value)`);
  the source relies on no particular iteration order.
* Trait objects (`AgentAttributes`, `PhysicalAsset`, `ExogenousProcess`,
  `InformationFilter`, `InformationDistorter`, `ChoiceModule`) are embedded
  as records of their methods over a type parameter, mirroring the trait
  bounds on the generic parameters of the Rust items.
* A fallible `&mut self` method becomes a state-passing function returning
  `Except Error α × State`, where the returned state carries exactly the
  mutations the Rust code has applied at the point it returns.
* `Uuid::new_v4` mints a fresh random identifier; no claim inspects a minted
  value, so the embedding uses a fixed token.
* The `format!` error and event messages interpolate identifiers and values;
  the embedding keeps the static text of each message.
* `EventBus` handlers only observe events; the embedding keeps the stored
  event log together with its bounded-capacity eviction.
-/

/-- `AgentId` wraps a 128-bit random UUID, compared by equality and used as a
map key; the embedding uses `Nat` as the supply of identifier values. -/
abbrev AgentId := Nat

/-- `AssetId` wraps a 128-bit random UUID, embedded like `AgentId`. -/
abbrev AssetId := Nat

/-- `ModelId` wraps a 128-bit random UUID, embedded like `AgentId`. -/
abbrev ModelId := Nat

/-- `pub type SimulationTime = f64` from `src/types.rs`. -/
abbrev SimulationTime := Rat

/-- `Uuid::new_v4` draws a fresh random identifier; the embedded operations
never compare a freshly minted identifier with anything, so the embedding
returns a fixed token. -/
def freshAgentId : AgentId := 0

/-- `TriggerType` from `src/types.rs`. -/
inductive TriggerType where
  | Temporal
  | Informational
  | Social
  | Economic
  | Regulatory
  | Technological
  | Environmental
  | Personal
  | Stochastic
  | Custom (name : String)
  deriving DecidableEq, Repr

/-- `EvaluationDimension` from `src/types.rs`. -/
inductive EvaluationDimension where
  | Economic
  | Environmental
  | Social
  | Functional
  | Aesthetic
  | Convenience
  | Safety
  | Reliability
  | Innovation
  | Brand
  | Custom (name : String)
  deriving DecidableEq, Repr

/-- The crate-wide `Error` enum from `src/lib.rs`; each variant carries the
static text of its message (the source interpolates identifiers into it). -/
inductive Error where
  | Agent (msg : String)
  | Environment (msg : String)
  | Validation (msg : String)
  | Information (msg : String)
  | Factory (msg : String)
  | Event (msg : String)
  | Generic (msg : String)
  deriving DecidableEq, Repr

/-- Whether an association list (the embedding of `HashMap`) contains a key,
as `HashMap::contains_key`. -/
def assocContains [DecidableEq α] (l : List (α × β)) (k : α) : Bool :=
  l.any (fun p => decide (p.1 = k))

/-- `HashMap::insert`: replace the value at an existing key in place, or add
a new entry. -/
def assocInsert [DecidableEq α] (l : List (α × β)) (k : α) (v : β) :
    List (α × β) :=
  match l with
  | [] => [(k, v)]
  | (k', v') :: rest =>
    if k' = k then (k, v) :: rest else (k', v') :: assocInsert rest k v

/-- `Information` from `src/information.rs`. -/
structure Information where
  content : String
  source : AgentId
  timestamp : SimulationTime
  reliability : Rat
  topic : String
  metadata : List (String × String)
  deriving DecidableEq, Repr

/-- `Information::new` from `src/information.rs`. -/
def Information.new (content : String) (source : AgentId)
    (timestamp : SimulationTime) (reliability : Rat) (topic : String) :
    Information :=
  { content := content, source := source, timestamp := timestamp,
    reliability := reliability, topic := topic, metadata := [] }

/-- `FilterContext` from `src/information.rs`. -/
structure FilterContext where
  current_time : SimulationTime
  agent_interests : List String
  relevance_threshold : Rat
  reliability_threshold : Rat
  recency_threshold : SimulationTime
  max_items : Option Nat
  deriving DecidableEq, Repr

/-- `FilterContext::new` from `src/information.rs`. -/
def FilterContext.new (current_time : SimulationTime) : FilterContext :=
  { current_time := current_time, agent_interests := [],
    relevance_threshold := 1/2, reliability_threshold := 3/10,
    recency_threshold := 100, max_items := none }

/-- `DistortionContext` from `src/information.rs`. -/
structure DistortionContext where
  current_time : SimulationTime
  agent_biases : List (String × Rat)
  social_influence : Rat
  stress_level : Rat
  confirmation_bias_strength : Rat
  deriving DecidableEq, Repr

/-- `DistortionContext::new` from `src/information.rs`. -/
def DistortionContext.new (current_time : SimulationTime) : DistortionContext :=
  { current_time := current_time, agent_biases := [],
    social_influence := 0, stress_level := 0,
    confirmation_bias_strength := 1/2 }

/-- The `InformationFilter` trait from `src/information.rs`, embedded as a
record of its methods over the implementing type `F`. -/
structure InformationFilterOps (F : Type) where
  filter_information : F → List Information → AgentId → FilterContext →
    Except Error (List Information)
  passes_filter : F → Information → AgentId → FilterContext →
    Except Error Bool
  filter_name : F → String
  parameters : F → List (String × Rat)

/-- The `InformationDistorter` trait from `src/information.rs`, embedded as a
record of its methods over the implementing type `D`. -/
structure InformationDistorterOps (D : Type) where
  distort_information : D → Information → AgentId → DistortionContext →
    Except Error Information
  distortion_magnitude : D → Information → AgentId → Rat
  distorter_name : D → String
  parameters : D → List (String × Rat)

variable {F D : Type}

/-- `Transformer` from `src/information.rs`. -/
structure Transformer (F D : Type) where
  filters : List F
  distorters : List D
  information_cache : List (AgentId × List Information)
  cache_expiry_time : SimulationTime

/-- `Transformer::new` from `src/information.rs`. -/
def Transformer.new (F D : Type) (cache_expiry_time : SimulationTime) :
    Transformer F D :=
  { filters := [], distorters := [], information_cache := [],
    cache_expiry_time := cache_expiry_time }

/-- `Transformer::add_filter` from `src/information.rs`. -/
def Transformer.add_filter (t : Transformer F D) (filter : F) :
    Transformer F D :=
  { t with filters := t.filters ++ [filter] }

/-- `Transformer::add_distorter` from `src/information.rs`. -/
def Transformer.add_distorter (t : Transformer F D) (distorter : D) :
    Transformer F D :=
  { t with distorters := t.distorters ++ [distorter] }

/-- The filter stage of `Transformer::process_information_for_agent`: the
`for filter in &self.filters` loop, each filter consuming the previous
filter's output list, any error aborting the call. -/
def applyFilters (fops : InformationFilterOps F) (filters : List F)
    (info : List Information) (agent_id : AgentId) (ctx : FilterContext) :
    Except Error (List Information) :=
  match filters with
  | [] => .ok info
  | f :: rest =>
    match fops.filter_information f info agent_id ctx with
    | .error e => .error e
    | .ok info' => applyFilters fops rest info' agent_id ctx

/-- The inner `for distorter in &self.distorters` loop of
`Transformer::process_information_for_agent`: one surviving item threaded
through the distorter chain. -/
def applyDistorters (dops : InformationDistorterOps D) (distorters : List D)
    (info : Information) (agent_id : AgentId) (ctx : DistortionContext) :
    Except Error Information :=
  match distorters with
  | [] => .ok info
  | d :: rest =>
    match dops.distort_information d info agent_id ctx with
    | .error e => .error e
    | .ok info' => applyDistorters dops rest info' agent_id ctx

/-- The outer `for info in processed_info` loop of
`Transformer::process_information_for_agent`: each surviving item through the
distorter chain in turn, any error aborting the call. -/
def distortAll (dops : InformationDistorterOps D) (distorters : List D)
    (items : List Information) (agent_id : AgentId) (ctx : DistortionContext) :
    Except Error (List Information) :=
  match items with
  | [] => .ok []
  | i :: rest =>
    match applyDistorters dops distorters i agent_id ctx with
    | .error e => .error e
    | .ok i' =>
      match distortAll dops distorters rest agent_id ctx with
      | .error e => .error e
      | .ok rest' => .ok (i' :: rest')

/-- `Transformer::process_information_for_agent` from `src/information.rs`:
filter stage, then distortion stage, then cache the final per-agent list.
On error nothing is cached and the transformer is unchanged. -/
def Transformer.process_information_for_agent
    (fops : InformationFilterOps F) (dops : InformationDistorterOps D)
    (t : Transformer F D) (agent_id : AgentId)
    (raw_information : List Information) (filter_context : FilterContext)
    (distortion_context : DistortionContext) :
    Except Error (List Information × Transformer F D) :=
  match applyFilters fops t.filters raw_information agent_id filter_context with
  | .error e => .error e
  | .ok processed_info =>
    match distortAll dops t.distorters processed_info agent_id
        distortion_context with
    | .error e => .error e
    | .ok distorted_info =>
      .ok (distorted_info,
        { t with information_cache :=
            assocInsert t.information_cache agent_id distorted_info })

/-- `Transformer::get_cached_information` from `src/information.rs`. -/
def Transformer.get_cached_information (t : Transformer F D)
    (agent_id : AgentId) : Option (List Information) :=
  (t.information_cache.find? (fun p => p.1 = agent_id)).map (·.2)

/-- `Transformer::clear_expired_cache` from `src/information.rs`: the whole
cache is cleared once `current_time` exceeds the single global threshold. -/
def Transformer.clear_expired_cache (t : Transformer F D)
    (current_time : SimulationTime) : Transformer F D :=
  if current_time > t.cache_expiry_time then
    { t with information_cache := [] }
  else t

/-- `Transformer::filter_count` from `src/information.rs`. -/
def Transformer.filter_count (t : Transformer F D) : Nat := t.filters.length

/-- `Transformer::distorter_count` from `src/information.rs`. -/
def Transformer.distorter_count (t : Transformer F D) : Nat :=
  t.distorters.length

/-- `EnvironmentChange` from `src/environment.rs`. -/
structure EnvironmentChange where
  change_type : String
  affected_assets : List AssetId
  magnitude : Rat
  duration : Option SimulationTime
  description : String
  deriving DecidableEq, Repr

/-- The mutating part of the `PhysicalAsset` trait from `src/environment.rs`,
embedded as a record of methods over the implementing type `P`;
`update_state(&mut self, time)` becomes a function returning the updated
asset (on error the asset is kept as it was). -/
structure PhysicalAssetOps (P : Type) where
  asset_id : P → AssetId
  name : P → String
  is_available : P → SimulationTime → Bool
  update_state : P → SimulationTime → Except Error P

/-- The `ExogenousProcess` trait from `src/environment.rs`, embedded as a
record of its methods over the implementing type `E`. -/
structure ExogenousProcessOps (E : Type) where
  update_environment : E → SimulationTime → Except Error (List EnvironmentChange)
  is_active : E → SimulationTime → Bool
  name : E → String
  frequency : E → Rat

variable {P K N R E : Type}

/-- `Environment` from `src/environment.rs`. -/
structure Environment (P K N R E : Type) where
  physical_assets : List (AssetId × P)
  knowledge_assets : List (AssetId × K)
  networks : List N
  interaction_rules : R
  exogenous_processes : List E
  current_time : SimulationTime

/-- `Environment::new` from `src/environment.rs`. -/
def Environment.new (interaction_rules : R) : Environment P K N R E :=
  { physical_assets := [], knowledge_assets := [], networks := [],
    interaction_rules := interaction_rules, exogenous_processes := [],
    current_time := 0 }

/-- `Environment::add_exogenous_process` from `src/environment.rs`. -/
def Environment.add_exogenous_process (env : Environment P K N R E)
    (process : E) : Environment P K N R E :=
  { env with exogenous_processes := env.exogenous_processes ++ [process] }

/-- The `for asset in self.physical_assets.values_mut()` loop of
`Environment::update_to_time`: each asset updated in place; the first error
aborts the loop, keeping the updates already applied (no rollback). -/
def updatePhysicalAssets (pops : PhysicalAssetOps P)
    (new_time : SimulationTime) :
    List (AssetId × P) → Except Error Unit × List (AssetId × P)
  | [] => (.ok (), [])
  | (id, a) :: rest =>
    match pops.update_state a new_time with
    | .error e => (.error e, (id, a) :: rest)
    | .ok a' =>
      ((updatePhysicalAssets pops new_time rest).1,
       (id, a') :: (updatePhysicalAssets pops new_time rest).2)

/-- The `for process in &self.exogenous_processes` loop of
`Environment::update_to_time`: every process active at `new_time` contributes
its changes, concatenated in registration order; the first error aborts. -/
def runExogenousProcesses (eops : ExogenousProcessOps E)
    (new_time : SimulationTime) : List E → Except Error (List EnvironmentChange)
  | [] => .ok []
  | p :: rest =>
    if eops.is_active p new_time then
      match eops.update_environment p new_time with
      | .error e => .error e
      | .ok changes =>
        match runExogenousProcesses eops new_time rest with
        | .error e => .error e
        | .ok more => .ok (changes ++ more)
    else runExogenousProcesses eops new_time rest

/-- `Environment::update_to_time` from `src/environment.rs`: update every
physical asset, then run the active exogenous processes, then set the
environment clock; on error the clock is left as it was, but asset updates
already applied persist. -/
def Environment.update_to_time (pops : PhysicalAssetOps P)
    (eops : ExogenousProcessOps E) (env : Environment P K N R E)
    (new_time : SimulationTime) :
    Except Error (List EnvironmentChange) × Environment P K N R E :=
  let assetsRes := updatePhysicalAssets pops new_time env.physical_assets
  match assetsRes.1 with
  | .error e => (.error e, { env with physical_assets := assetsRes.2 })
  | .ok _ =>
    match runExogenousProcesses eops new_time env.exogenous_processes with
    | .error e => (.error e, { env with physical_assets := assetsRes.2 })
    | .ok all_changes =>
      (.ok all_changes,
       { env with physical_assets := assetsRes.2, current_time := new_time })

/-- Modelled from the spec sentence for claim C5: run every process of the
given (already filtered) list and concatenate the `EnvironmentChange` records
in list order. Used to state that `runExogenousProcesses` equals this
collection applied to the processes whose `is_active` holds. -/
def collectChanges (eops : ExogenousProcessOps E) (new_time : SimulationTime) :
    List E → Except Error (List EnvironmentChange)
  | [] => .ok []
  | p :: rest =>
    match eops.update_environment p new_time with
    | .error e => .error e
    | .ok changes =>
      match collectChanges eops new_time rest with
      | .error e => .error e
      | .ok more => .ok (changes ++ more)

/-- The `AgentAttributes` trait from `src/agent.rs`, embedded as a record of
its read methods over the implementing type `A`. -/
structure AgentAttributesOps (A : Type) where
  agent_id : A → AgentId
  psychological_attributes : A → List (String × Rat)
  socioeconomic_attributes : A → List (String × Rat)
  stock_variables : A → List (String × Option String)

/-- `ValidationRules` from `src/utils.rs`. -/
structure ValidationRules where
  min_reliability : Rat
  max_reliability : Rat
  min_probability : Rat
  max_probability : Rat
  required_psychological_attributes : List String
  required_socioeconomic_attributes : List String
  deriving DecidableEq, Repr

/-- `ValidationRules::new` from `src/utils.rs`. -/
def ValidationRules.new : ValidationRules :=
  { min_reliability := 0, max_reliability := 1,
    min_probability := 0, max_probability := 1,
    required_psychological_attributes := [],
    required_socioeconomic_attributes := [] }

/-- `ModelValidator` from `src/utils.rs`. -/
structure ModelValidator where
  rules : ValidationRules
  deriving DecidableEq, Repr

/-- `ModelValidator::new` from `src/utils.rs`. -/
def ModelValidator.new : ModelValidator := { rules := ValidationRules.new }

def missingPsychologicalMsg : String :=
  "Missing required psychological attribute"

def missingSocioeconomicMsg : String :=
  "Missing required socioeconomic attribute"

def psychologicalRangeMsg : String :=
  "Psychological attribute must be between 0.0 and 1.0"

def socioeconomicRangeMsg : String :=
  "Socioeconomic attribute must be non-negative"

/-- The first `for required_attr in ...` loop of
`ModelValidator::validate_agent_attributes`: error at the first required
psychological attribute that is absent. -/
def checkRequiredPsychological (required : List String)
    (psychological : List (String × Rat)) : Except Error Unit :=
  match required with
  | [] => .ok ()
  | r :: rest =>
    if assocContains psychological r then
      checkRequiredPsychological rest psychological
    else .error (.Validation missingPsychologicalMsg)

/-- The second `for required_attr in ...` loop of
`ModelValidator::validate_agent_attributes`. -/
def checkRequiredSocioeconomic (required : List String)
    (socioeconomic : List (String × Rat)) : Except Error Unit :=
  match required with
  | [] => .ok ()
  | r :: rest =>
    if assocContains socioeconomic r then
      checkRequiredSocioeconomic rest socioeconomic
    else .error (.Validation missingSocioeconomicMsg)

/-- The `for (name, value) in psychological` loop of
`ModelValidator::validate_agent_attributes`: `value < 0.0 || value > 1.0`
is an error. -/
def checkPsychologicalValues : List (String × Rat) → Except Error Unit
  | [] => .ok ()
  | (_, value) :: rest =>
    if value < 0 ∨ value > 1 then .error (.Validation psychologicalRangeMsg)
    else checkPsychologicalValues rest

/-- The `for (name, value) in socioeconomic` loop of
`ModelValidator::validate_agent_attributes`: `value < 0.0` is an error. -/
def checkSocioeconomicValues : List (String × Rat) → Except Error Unit
  | [] => .ok ()
  | (_, value) :: rest =>
    if value < 0 then .error (.Validation socioeconomicRangeMsg)
    else checkSocioeconomicValues rest

variable {A C Choice Ctx : Type}

/-- `ModelValidator::validate_agent_attributes` from `src/utils.rs`. -/
def ModelValidator.validate_agent_attributes (aops : AgentAttributesOps A)
    (_v : ModelValidator) (attributes : A) : Except Error Unit :=
  let psychological := aops.psychological_attributes attributes
  let socioeconomic := aops.socioeconomic_attributes attributes
  match checkRequiredPsychological
      _v.rules.required_psychological_attributes psychological with
  | .error e => .error e
  | .ok _ =>
    match checkRequiredSocioeconomic
        _v.rules.required_socioeconomic_attributes socioeconomic with
    | .error e => .error e
    | .ok _ =>
      match checkPsychologicalValues psychological with
      | .error e => .error e
      | .ok _ => checkSocioeconomicValues socioeconomic

/-- The `ChoiceModule` trait from `src/agent.rs`, embedded as a record of its
methods over the implementing type `C` with associated types `Choice` and
`Ctx`. -/
structure ChoiceModuleOps (C Choice Ctx : Type) where
  make_choice : C → List Choice → Ctx → TriggerType →
    Except Error (Option Choice)
  evaluate_choice : C → Choice → List EvaluationDimension → Ctx →
    Except Error (List (EvaluationDimension × Rat))
  should_make_choice : C → TriggerType → Ctx → Bool
  evaluation_dimensions : C → List EvaluationDimension

/-- `ChoiceRecord` from `src/agent.rs`. -/
structure ChoiceRecord (Choice : Type) where
  choice : Choice
  time : SimulationTime
  trigger : TriggerType
  evaluation_scores : List (EvaluationDimension × Rat)

/-- `ConsumerAgent` from `src/agent.rs` (`Choice` is the choice module's
associated `Choice` type). -/
structure ConsumerAgent (A C Choice : Type) where
  attributes : A
  choice_module : C
  last_choice_time : Option SimulationTime
  choice_history : List (ChoiceRecord Choice)

/-- `ConsumerAgent::new` from `src/agent.rs`. -/
def ConsumerAgent.new (attributes : A) (choice_module : C) :
    ConsumerAgent A C Choice :=
  { attributes := attributes, choice_module := choice_module,
    last_choice_time := none, choice_history := [] }

/-- `ConsumerAgent::process_trigger` from `src/agent.rs`: ask the choice
module whether to decide, make the choice, evaluate it, and on `Some` append
one `ChoiceRecord` at the call's `current_time` and set `last_choice_time`;
on `None` or on error the agent is unchanged. -/
def ConsumerAgent.process_trigger (cops : ChoiceModuleOps C Choice Ctx)
    (agent : ConsumerAgent A C Choice) (trigger : TriggerType)
    (choices : List Choice) (context : Ctx) (current_time : SimulationTime) :
    Except Error (Option Choice) × ConsumerAgent A C Choice :=
  if ¬ cops.should_make_choice agent.choice_module trigger context then
    (.ok none, agent)
  else
    match cops.make_choice agent.choice_module choices context trigger with
    | .error e => (.error e, agent)
    | .ok none => (.ok none, agent)
    | .ok (some choice) =>
      let dimensions := cops.evaluation_dimensions agent.choice_module
      match cops.evaluate_choice agent.choice_module choice dimensions
          context with
      | .error e => (.error e, agent)
      | .ok evaluation_scores =>
        let record : ChoiceRecord Choice :=
          { choice := choice, time := current_time, trigger := trigger,
            evaluation_scores := evaluation_scores }
        (.ok (some choice),
         { agent with
             choice_history := agent.choice_history ++ [record],
             last_choice_time := some current_time })

/-- `ConsumerAgent::clear_history` from `src/agent.rs`. -/
def ConsumerAgent.clear_history (agent : ConsumerAgent A C Choice) :
    ConsumerAgent A C Choice :=
  { agent with choice_history := [], last_choice_time := none }

/-- `EventType` from `src/utils.rs`. -/
inductive EventType where
  | AgentAdded
  | AgentRemoved
  | ChoiceMade
  | SimulationStarted
  | SimulationPaused
  | SimulationResumed
  | SimulationCompleted
  | ValidationError
  | EnvironmentUpdated
  | InformationProcessed
  | Custom (name : String)
  deriving DecidableEq, Repr

/-- `ModelEvent` from `src/utils.rs`. -/
structure ModelEvent where
  event_type : EventType
  timestamp : SimulationTime
  agent_id : Option AgentId
  description : String
  metadata : List (String × String)
  deriving DecidableEq, Repr

def agentAddedDescription : String := "Agent added to model"

def agentRemovedDescription : String := "Agent removed from model"

def simulationStartedDescription : String := "Simulation started"

def simulationPausedDescription : String := "Simulation paused"

def simulationResumedDescription : String := "Simulation resumed"

def simulationCompletedDescription : String := "Simulation completed"

/-- `ModelEvent::agent_added` from `src/utils.rs`. -/
def ModelEvent.agent_added (agent_id : AgentId)
    (timestamp : SimulationTime) : ModelEvent :=
  { event_type := .AgentAdded, timestamp := timestamp,
    agent_id := some agent_id, description := agentAddedDescription,
    metadata := [] }

/-- `ModelEvent::agent_removed` from `src/utils.rs`. -/
def ModelEvent.agent_removed (agent_id : AgentId)
    (timestamp : SimulationTime) : ModelEvent :=
  { event_type := .AgentRemoved, timestamp := timestamp,
    agent_id := some agent_id, description := agentRemovedDescription,
    metadata := [] }

/-- `ModelEvent::simulation_started` from `src/utils.rs`. -/
def ModelEvent.simulation_started (timestamp : SimulationTime) : ModelEvent :=
  { event_type := .SimulationStarted, timestamp := timestamp,
    agent_id := none, description := simulationStartedDescription,
    metadata := [] }

/-- `ModelEvent::simulation_paused` from `src/utils.rs`. -/
def ModelEvent.simulation_paused (timestamp : SimulationTime) : ModelEvent :=
  { event_type := .SimulationPaused, timestamp := timestamp,
    agent_id := none, description := simulationPausedDescription,
    metadata := [] }

/-- `ModelEvent::simulation_resumed` from `src/utils.rs`. -/
def ModelEvent.simulation_resumed (timestamp : SimulationTime) : ModelEvent :=
  { event_type := .SimulationResumed, timestamp := timestamp,
    agent_id := none, description := simulationResumedDescription,
    metadata := [] }

/-- `ModelEvent::simulation_completed` from `src/utils.rs`. -/
def ModelEvent.simulation_completed (timestamp : SimulationTime) : ModelEvent :=
  { event_type := .SimulationCompleted, timestamp := timestamp,
    agent_id := none, description := simulationCompletedDescription,
    metadata := [] }

/-- `EventBus` from `src/utils.rs`; the registered handlers are pure
observers of emitted events and are not part of the embedded state. -/
structure EventBus where
  events : List ModelEvent
  max_events : Nat
  deriving DecidableEq, Repr

/-- `EventBus::new` from `src/utils.rs`. -/
def EventBus.new : EventBus := { events := [], max_events := 10000 }

/-- `EventBus::emit` from `src/utils.rs`: store the event; when the stored
count exceeds `max_events`, evict the oldest (`events.remove(0)`). -/
def EventBus.emit (bus : EventBus) (event : ModelEvent) : EventBus :=
  let events := bus.events ++ [event]
  let events :=
    if events.length > bus.max_events then events.drop 1 else events
  { bus with events := events }

/-- `EventBus::clear_events` from `src/utils.rs`. -/
def EventBus.clear_events (bus : EventBus) : EventBus :=
  { bus with events := [] }

/-- `EventBus::event_count` from `src/utils.rs`. -/
def EventBus.event_count (bus : EventBus) : Nat := bus.events.length

/-- `ModelConfiguration` from `src/model.rs`. -/
structure ModelConfiguration where
  model_id : ModelId
  name : String
  description : String
  time_step : SimulationTime
  max_simulation_time : SimulationTime
  random_seed : Option Nat
  validation_enabled : Bool
  event_logging_enabled : Bool
  deriving DecidableEq, Repr

/-- `ModelConfiguration::new` from `src/model.rs` (the freshly minted
`ModelId::new()` is embedded by the fixed token `0`). -/
def ModelConfiguration.new (name : String) (description : String) :
    ModelConfiguration :=
  { model_id := 0, name := name, description := description,
    time_step := 1, max_simulation_time := 1000, random_seed := none,
    validation_enabled := true, event_logging_enabled := true }

/-- `ModelConfiguration::with_time_step` from `src/model.rs`: sets the field
unconditionally, with no validation of the supplied value. -/
def ModelConfiguration.with_time_step (c : ModelConfiguration)
    (time_step : SimulationTime) : ModelConfiguration :=
  { c with time_step := time_step }

/-- `ModelConfiguration::with_max_time` from `src/model.rs`. -/
def ModelConfiguration.with_max_time (c : ModelConfiguration)
    (max_time : SimulationTime) : ModelConfiguration :=
  { c with max_simulation_time := max_time }

/-- `ModelConfiguration::with_validation` from `src/model.rs`. -/
def ModelConfiguration.with_validation (c : ModelConfiguration)
    (enabled : Bool) : ModelConfiguration :=
  { c with validation_enabled := enabled }

/-- `ModelState` from `src/model.rs`. -/
inductive ModelState where
  | Initialized
  | Running
  | Paused
  | Completed
  | Error
  deriving DecidableEq, Repr

/-- `ModelStatistics` from `src/model.rs`. -/
structure ModelStatistics where
  total_agents : Nat
  total_choices_made : Nat
  average_choices_per_agent : Rat
  simulation_duration : SimulationTime
  events_processed : Nat
  validation_errors : Nat
  deriving DecidableEq, Repr

/-- `ModelStatistics::new` from `src/model.rs`. -/
def ModelStatistics.new : ModelStatistics :=
  { total_agents := 0, total_choices_made := 0,
    average_choices_per_agent := 0, simulation_duration := 0,
    events_processed := 0, validation_errors := 0 }

/-- `ConsumerChoiceModel` from `src/model.rs`. -/
structure ConsumerChoiceModel (A C Choice P K N R E F D : Type) where
  configuration : ModelConfiguration
  state : ModelState
  current_time : SimulationTime
  agents : List (AgentId × ConsumerAgent A C Choice)
  environment : Environment P K N R E
  information_transformer : Transformer F D
  event_bus : EventBus
  validator : ModelValidator
  statistics : ModelStatistics

/-- The trait bounds of the `impl` block of `ConsumerChoiceModel` in
`src/model.rs`, bundled: the method records of the component types a model
is generic over. -/
structure ModelOps (A P E F D : Type) where
  agent_attributes : AgentAttributesOps A
  physical_asset : PhysicalAssetOps P
  exogenous_process : ExogenousProcessOps E
  information_filter : InformationFilterOps F
  information_distorter : InformationDistorterOps D

/-- `ConsumerChoiceModel::new` from `src/model.rs`. -/
def ConsumerChoiceModel.new (configuration : ModelConfiguration)
    (environment : Environment P K N R E)
    (information_transformer : Transformer F D) :
    ConsumerChoiceModel A C Choice P K N R E F D :=
  { configuration := configuration, state := .Initialized, current_time := 0,
    agents := [], environment := environment,
    information_transformer := information_transformer,
    event_bus := EventBus.new, validator := ModelValidator.new,
    statistics := ModelStatistics.new }

def addAgentStateMsg : String :=
  "Agents can only be added when model is initialized"

def agentExistsMsg : String := "Agent with ID already exists"

def removeAgentRunningMsg : String := "Cannot remove agents while model is running"

def agentNotFoundMsg : String := "Agent with ID not found"

def startStateMsg : String := "Model can only be started from initialized state"

def startNoAgentsMsg : String := "Cannot start simulation with no agents"

def pauseStateMsg : String := "Model can only be paused when running"

def resumeStateMsg : String := "Model can only be resumed when paused"

def stepStateMsg : String := "Cannot step when model is not running"

def resetRunningMsg : String := "Cannot reset while model is running"

/-- `ConsumerChoiceModel::update_statistics` from `src/model.rs`. -/
def ConsumerChoiceModel.update_statistics
    (m : ConsumerChoiceModel A C Choice P K N R E F D) :
    ConsumerChoiceModel A C Choice P K N R E F D :=
  let total_agents := m.agents.length
  let total_choices :=
    (m.agents.map (fun p => p.2.choice_history.length)).sum
  let stats :=
    { m.statistics with
        total_agents := total_agents,
        simulation_duration := m.current_time,
        total_choices_made := total_choices }
  let stats :=
    if total_agents > 0 then
      { stats with
          average_choices_per_agent :=
            (total_choices : Rat) / (total_agents : Rat) }
    else stats
  { m with statistics := stats }

/-- `ConsumerChoiceModel::add_agent` from `src/model.rs`: legal only in
`Initialized`, duplicate IDs rejected, optional validation, then insert and
emit `AgentAdded` when event logging is enabled. -/
def ConsumerChoiceModel.add_agent (ops : ModelOps A P E F D)
    (m : ConsumerChoiceModel A C Choice P K N R E F D)
    (agent : ConsumerAgent A C Choice) :
    Except Error Unit × ConsumerChoiceModel A C Choice P K N R E F D :=
  if m.state ≠ ModelState.Initialized then
    (.error (.Generic addAgentStateMsg), m)
  else
    let agent_id := ops.agent_attributes.agent_id agent.attributes
    if assocContains m.agents agent_id then
      (.error (.Agent agentExistsMsg), m)
    else
      match
        if m.configuration.validation_enabled then
          m.validator.validate_agent_attributes ops.agent_attributes
            agent.attributes
        else .ok () with
      | .error e => (.error e, m)
      | .ok _ =>
        let m := { m with agents := assocInsert m.agents agent_id agent }
        let m :=
          if m.configuration.event_logging_enabled then
            { m with event_bus := m.event_bus.emit (ModelEvent.agent_added agent_id m.current_time) }
          else m
        (.ok (), m)

/-- `ConsumerChoiceModel::remove_agent` from `src/model.rs`. -/
def ConsumerChoiceModel.remove_agent
    (m : ConsumerChoiceModel A C Choice P K N R E F D) (agent_id : AgentId) :
    Except Error Unit × ConsumerChoiceModel A C Choice P K N R E F D :=
  if m.state = ModelState.Running then
    (.error (.Generic removeAgentRunningMsg), m)
  else if ¬ assocContains m.agents agent_id then
    (.error (.Agent agentNotFoundMsg), m)
  else
    let m := { m with agents := m.agents.filter (fun p => p.1 ≠ agent_id) }
    let m :=
      if m.configuration.event_logging_enabled then
        { m with event_bus := m.event_bus.emit (ModelEvent.agent_removed agent_id m.current_time) }
      else m
    (.ok (), m)

/-- `ConsumerChoiceModel::start` from `src/model.rs`: legal only from
`Initialized` with a non-empty agent set; on success the state becomes
`Running`, the clock is reset to `0` and `SimulationStarted` is emitted when
event logging is enabled. -/
def ConsumerChoiceModel.start
    (m : ConsumerChoiceModel A C Choice P K N R E F D) :
    Except Error Unit × ConsumerChoiceModel A C Choice P K N R E F D :=
  if m.state ≠ ModelState.Initialized then
    (.error (.Generic startStateMsg), m)
  else if m.agents.isEmpty then
    (.error (.Generic startNoAgentsMsg), m)
  else
    let m := { m with state := ModelState.Running, current_time := 0 }
    let m :=
      if m.configuration.event_logging_enabled then
        { m with event_bus :=
            m.event_bus.emit (ModelEvent.simulation_started m.current_time) }
      else m
    (.ok (), m)

/-- `ConsumerChoiceModel::pause` from `src/model.rs`. -/
def ConsumerChoiceModel.pause
    (m : ConsumerChoiceModel A C Choice P K N R E F D) :
    Except Error Unit × ConsumerChoiceModel A C Choice P K N R E F D :=
  if m.state ≠ ModelState.Running then
    (.error (.Generic pauseStateMsg), m)
  else
    let m := { m with state := ModelState.Paused }
    let m :=
      if m.configuration.event_logging_enabled then
        { m with event_bus :=
            m.event_bus.emit (ModelEvent.simulation_paused m.current_time) }
      else m
    (.ok (), m)

/-- `ConsumerChoiceModel::resume` from `src/model.rs`. -/
def ConsumerChoiceModel.resume
    (m : ConsumerChoiceModel A C Choice P K N R E F D) :
    Except Error Unit × ConsumerChoiceModel A C Choice P K N R E F D :=
  if m.state ≠ ModelState.Paused then
    (.error (.Generic resumeStateMsg), m)
  else
    let m := { m with state := ModelState.Running }
    let m :=
      if m.configuration.event_logging_enabled then
        { m with event_bus :=
            m.event_bus.emit (ModelEvent.simulation_resumed m.current_time) }
      else m
    (.ok (), m)

/-- `ConsumerChoiceModel::stop` from `src/model.rs`: a no-op returning `Ok`
when the state is already `Completed` or `Error`; otherwise the state becomes
`Completed`, statistics are updated, and `SimulationCompleted` is emitted
when event logging is enabled. -/
def ConsumerChoiceModel.stop
    (m : ConsumerChoiceModel A C Choice P K N R E F D) :
    Except Error Unit × ConsumerChoiceModel A C Choice P K N R E F D :=
  if m.state = ModelState.Completed ∨ m.state = ModelState.Error then
    (.ok (), m)
  else
    let m := { m with state := ModelState.Completed }
    let m := m.update_statistics
    let m :=
      if m.configuration.event_logging_enabled then
        { m with event_bus := m.event_bus.emit (ModelEvent.simulation_completed m.current_time) }
      else m
    (.ok (), m)

/-- The `for (agent_id, agent) in &mut self.agents` loop of
`ConsumerChoiceModel::step`: every agent gets fresh contexts at `new_time`
and the full information batch through the transformer; the first error
aborts the loop, keeping the cache entries already written. -/
def processAgents (fops : InformationFilterOps F)
    (dops : InformationDistorterOps D) (t : Transformer F D)
    (agents : List (AgentId × ConsumerAgent A C Choice))
    (all_information : List Information) (new_time : SimulationTime) :
    Except Error Unit × Transformer F D :=
  match agents with
  | [] => (.ok (), t)
  | (agent_id, _) :: rest =>
    let filter_context := FilterContext.new new_time
    let distortion_context := DistortionContext.new new_time
    match Transformer.process_information_for_agent fops dops t agent_id
        all_information filter_context distortion_context with
    | .error e => (.error e, t)
    | .ok (_, t') =>
      processAgents fops dops t' rest all_information new_time

/-- `ConsumerChoiceModel::step` from `src/model.rs` (the non-async variant):
guard on `Running`; if `new_time` would exceed `max_simulation_time`, call
`stop` and return; otherwise update the environment, convert each
environment change into one synthetic `Information` item, run the batch
through the transformer for every agent, advance the clock and recompute
statistics. -/
def ConsumerChoiceModel.step (ops : ModelOps A P E F D)
    (m : ConsumerChoiceModel A C Choice P K N R E F D) :
    Except Error Unit × ConsumerChoiceModel A C Choice P K N R E F D :=
  if m.state ≠ ModelState.Running then
    (.error (.Generic stepStateMsg), m)
  else
    let new_time := m.current_time + m.configuration.time_step
    if new_time > m.configuration.max_simulation_time then
      let stopRes := m.stop
      match stopRes.1 with
      | .error e => (.error e, stopRes.2)
      | .ok _ => (.ok (), stopRes.2)
    else
      let envRes := Environment.update_to_time ops.physical_asset
        ops.exogenous_process m.environment new_time
      match envRes.1 with
      | .error e => (.error e, { m with environment := envRes.2 })
      | .ok environment_changes =>
        let all_information := environment_changes.map (fun change =>
          Information.new change.description freshAgentId new_time 1
            change.change_type)
        let m := { m with environment := envRes.2 }
        let agentsRes := processAgents ops.information_filter
          ops.information_distorter m.information_transformer m.agents
          all_information new_time
        match agentsRes.1 with
        | .error e =>
          (.error e, { m with information_transformer := agentsRes.2 })
        | .ok _ =>
          let m := { m with information_transformer := agentsRes.2,
                            current_time := new_time }
          (.ok (), m.update_statistics)

/-- The `while self.state == ModelState::Running` loop of
`ConsumerChoiceModel::run`, with an explicit iteration budget: `none` means
the budget was exhausted with the loop still running, so termination of the
source loop within `n` iterations is the statement
`runLoop ops n m ≠ none`. -/
def ConsumerChoiceModel.runLoop (ops : ModelOps A P E F D) :
    Nat → ConsumerChoiceModel A C Choice P K N R E F D →
    Option (Except Error Unit × ConsumerChoiceModel A C Choice P K N R E F D)
  | 0, _ => none
  | Nat.succ n, m =>
    if m.state = ModelState.Running then
      let stepRes := m.step ops
      match stepRes.1 with
      | .error e => some (.error e, stepRes.2)
      | .ok _ => ConsumerChoiceModel.runLoop ops n stepRes.2
    else some (.ok (), m)

/-- `ConsumerChoiceModel::run` from `src/model.rs`: `start`, then step until
the state leaves `Running` (the loop measured with an iteration budget). -/
def ConsumerChoiceModel.run (ops : ModelOps A P E F D) (fuel : Nat)
    (m : ConsumerChoiceModel A C Choice P K N R E F D) :
    Option (Except Error Unit × ConsumerChoiceModel A C Choice P K N R E F D) :=
  let startRes := m.start
  match startRes.1 with
  | .error e => some (.error e, startRes.2)
  | .ok _ => ConsumerChoiceModel.runLoop ops fuel startRes.2

/-- `ConsumerChoiceModel::reset` from `src/model.rs`. -/
def ConsumerChoiceModel.reset
    (m : ConsumerChoiceModel A C Choice P K N R E F D) :
    Except Error Unit × ConsumerChoiceModel A C Choice P K N R E F D :=
  if m.state = ModelState.Running then
    (.error (.Generic resetRunningMsg), m)
  else
    let m :=
      { m with state := ModelState.Initialized, current_time := 0,
               statistics := ModelStatistics.new,
               agents := m.agents.map (fun p => (p.1, p.2.clear_history)),
               event_bus := m.event_bus.clear_events }
    (.ok (), m)

def testName : String := "test"

def testFailureMsg : String := "test failure"

/-- `BasicAgentAttributes` from `src/agent.rs`, the crate's simple
`AgentAttributes` implementation backed by plain maps. -/
structure BasicAgentAttributes where
  agent_id : AgentId
  psychological : List (String × Rat)
  socioeconomic : List (String × Rat)
  stock_variables : List (String × Option String)
  deriving DecidableEq, Repr

/-- The `impl AgentAttributes for BasicAgentAttributes` of `src/agent.rs`:
each method returns the stored map. -/
def basicAgentAttributesOps : AgentAttributesOps BasicAgentAttributes :=
  { agent_id := fun a => a.agent_id,
    psychological_attributes := fun a => a.psychological,
    socioeconomic_attributes := fun a => a.socioeconomic,
    stock_variables := fun a => a.stock_variables }

/-- A physical-asset instance whose `update_state` always succeeds without
changing the asset, for evaluating the model operations on concrete input. -/
def unitPhysicalAssetOps : PhysicalAssetOps Unit :=
  { asset_id := fun _ => 0, name := fun _ => testName,
    is_available := fun _ _ => true,
    update_state := fun a _ => .ok a }

/-- An exogenous-process instance that is always active and yields no
changes, for evaluating the model operations on concrete input. -/
def unitExogenousProcessOps : ExogenousProcessOps Unit :=
  { update_environment := fun _ _ => .ok [],
    is_active := fun _ _ => true,
    name := fun _ => testName, frequency := fun _ => 0 }

/-- A filter instance that always succeeds keeping everything, for
evaluating the model operations on concrete input. -/
def unitInformationFilterOps : InformationFilterOps Unit :=
  { filter_information := fun _ info _ _ => .ok info,
    passes_filter := fun _ _ _ _ => .ok true,
    filter_name := fun _ => testName,
    parameters := fun _ => [] }

/-- A distorter instance that always succeeds returning the item unchanged,
for evaluating the model operations on concrete input. -/
def unitInformationDistorterOps : InformationDistorterOps Unit :=
  { distort_information := fun _ info _ _ => .ok info,
    distortion_magnitude := fun _ _ _ => 0,
    distorter_name := fun _ => testName,
    parameters := fun _ => [] }

/-- The component bundle with the always-succeeding instances. -/
def unitModelOps : ModelOps BasicAgentAttributes Unit Unit Unit Unit :=
  { agent_attributes := basicAgentAttributesOps,
    physical_asset := unitPhysicalAssetOps,
    exogenous_process := unitExogenousProcessOps,
    information_filter := unitInformationFilterOps,
    information_distorter := unitInformationDistorterOps }

/-- An exogenous-process instance for concrete evaluation: the first
component tells whether `is_active` holds, the second is `some changes` for
a successful `update_environment` and `none` for a failing one. -/
def testExogenousProcessOps :
    ExogenousProcessOps (Bool × Option (List EnvironmentChange)) :=
  { update_environment := fun p _ =>
      match p.2 with
      | some changes => .ok changes
      | none => .error (.Environment testFailureMsg),
    is_active := fun p _ => p.1,
    name := fun _ => testName, frequency := fun _ => 0 }

/-- A filter instance for concrete evaluation: `true` keeps every item,
`false` rejects every item. -/
def testInformationFilterOps : InformationFilterOps Bool :=
  { filter_information := fun keep info _ _ =>
      .ok (if keep then info else []),
    passes_filter := fun keep _ _ _ => .ok keep,
    filter_name := fun _ => testName,
    parameters := fun _ => [] }

/-- A distorter instance for concrete evaluation: `true` returns the item
unchanged, `false` fails — so a pipeline that returns `ok` with a `false`
distorter registered can never have invoked it. -/
def testInformationDistorterOps : InformationDistorterOps Bool :=
  { distort_information := fun good info _ _ =>
      if good then .ok info else .error (.Information testFailureMsg),
    distortion_magnitude := fun _ _ _ => 0,
    distorter_name := fun _ => testName,
    parameters := fun _ => [] }

/-- The component bundle with the configurable test instances. -/
def testModelOps :
    ModelOps BasicAgentAttributes Unit
      (Bool × Option (List EnvironmentChange)) Bool Bool :=
  { agent_attributes := basicAgentAttributesOps,
    physical_asset := unitPhysicalAssetOps,
    exogenous_process := testExogenousProcessOps,
    information_filter := testInformationFilterOps,
    information_distorter := testInformationDistorterOps }

/-- The `impl ChoiceModule for TestChoiceModule` of the tests in
`src/model.rs`, over `C := Bool` so that `should_make_choice` can be told to
refuse: `make_choice` picks the first offered choice, evaluation is empty. -/
def testChoiceModuleOps : ChoiceModuleOps Bool Unit Unit :=
  { make_choice := fun _ choices _ _ => .ok choices.head?,
    evaluate_choice := fun _ _ _ _ => .ok [],
    should_make_choice := fun c _ _ => c,
    evaluation_dimensions := fun _ => [] }

/-- A concrete environment change for evaluation. -/
def testChange (description : String) : EnvironmentChange :=
  { change_type := testName, affected_assets := [], magnitude := 1,
    duration := none, description := description }

/-- A concrete agent with identifier `1` and empty attribute maps. -/
def testAgent : ConsumerAgent BasicAgentAttributes Unit Unit :=
  ConsumerAgent.new
    { agent_id := 1, psychological := [], socioeconomic := [],
      stock_variables := [] } ()

/-- A concrete model over the always-succeeding component instances: one
agent, empty environment and transformer, and the given state, clock, time
step and horizon. -/
def testModel (state : ModelState)
    (current_time time_step max_time : Rat) :
    ConsumerChoiceModel BasicAgentAttributes Unit Unit Unit Unit Unit Unit
      Unit Unit Unit :=
  { configuration :=
      { ModelConfiguration.new testName testName with
          time_step := time_step, max_simulation_time := max_time },
    state := state, current_time := current_time,
    agents := [(1, testAgent)],
    environment := Environment.new (),
    information_transformer := Transformer.new Unit Unit 100,
    event_bus := EventBus.new, validator := ModelValidator.new,
    statistics := ModelStatistics.new }

/-- A concrete model over the configurable component instances, with the
given exogenous processes. -/
def testModelE (state : ModelState)
    (current_time time_step max_time : Rat)
    (procs : List (Bool × Option (List EnvironmentChange))) :
    ConsumerChoiceModel BasicAgentAttributes Unit Unit Unit Unit Unit Unit
      (Bool × Option (List EnvironmentChange)) Bool Bool :=
  { configuration :=
      { ModelConfiguration.new testName testName with
          time_step := time_step, max_simulation_time := max_time },
    state := state, current_time := current_time,
    agents := [(1, testAgent)],
    environment :=
      { (Environment.new () :
          Environment Unit Unit Unit Unit
            (Bool × Option (List EnvironmentChange))) with
          exogenous_processes := procs },
    information_transformer := Transformer.new Bool Bool 100,
    event_bus := EventBus.new, validator := ModelValidator.new,
    statistics := ModelStatistics.new }

/-- A concrete environment for evaluation, with the given exogenous
processes and clock `5`. -/
def testEnvironment (procs : List (Bool × Option (List EnvironmentChange))) :
    Environment Unit Unit Unit Unit
      (Bool × Option (List EnvironmentChange)) :=
  { physical_assets := [], knowledge_assets := [], networks := [],
    interaction_rules := (), exogenous_processes := procs,
    current_time := 5 }

/-- A concrete agent over the test choice module (`C := Bool`, where the
module refuses to decide when `false`). -/
def testAgentChoice (willing : Bool) :
    ConsumerAgent BasicAgentAttributes Bool Unit :=
  ConsumerAgent.new
    { agent_id := 1, psychological := [], socioeconomic := [],
      stock_variables := [] } willing

/-- A concrete agent whose psychological values sit exactly on the `[0, 1]`
boundary (`1` and `0`) and whose socioeconomic value is `0`. -/
def testAgentBoundary : ConsumerAgent BasicAgentAttributes Unit Unit :=
  ConsumerAgent.new
    { agent_id := 2, psychological := [(testName, 1), (testFailureMsg, 0)],
      socioeconomic := [(testName, 0)], stock_variables := [] } ()

/-- A concrete agent with the out-of-range psychological value `1.5`. -/
def testAgentOutOfRange : ConsumerAgent BasicAgentAttributes Unit Unit :=
  ConsumerAgent.new
    { agent_id := 3, psychological := [(testName, 3/2)],
      socioeconomic := [], stock_variables := [] } ()

lemma except_isOk_iff {ε α : Type} (r : Except ε α) :
    r.isOk = true ↔ ∃ a, r = .ok a := by
  cases r <;> simp [Except.isOk, Except.toBool]

lemma except_isOk_of_ok {ε α : Type} {r : Except ε α} {a : α}
    (h : r = .ok a) : r.isOk = true := by
  subst h; rfl

/-- C4. `Transformer::process_information_for_agent` applies the registered
filters in registration order, each filter consuming the previous filter's
output list, then threads each surviving item through the registered
distorters in registration order; with filters `[f1, f2]` and one item that
`f1` rejects (and `f2` behaving as a filter on the empty list), the call
returns the empty list — for every distorter record whatsoever, so no
distorter is ever invoked on that item. -/
theorem transformer_pipeline_order_and_rejection
    (fops : InformationFilterOps F) (dops : InformationDistorterOps D)
    (f1 f2 : F) (d1 d2 : D) (aid : AgentId) (fctx : FilterContext)
    (dctx : DistortionContext) :
    (∀ raw, applyFilters fops [f1, f2] raw aid fctx
      = (fops.filter_information f1 raw aid fctx).bind
          (fun l => fops.filter_information f2 l aid fctx))
    ∧ (∀ i, applyDistorters dops [d1, d2] i aid dctx
      = (dops.distort_information d1 i aid dctx).bind
          (fun j => dops.distort_information d2 j aid dctx))
    ∧ (∀ (t : Transformer F D) (info : Information),
        t.filters = [f1, f2] →
        fops.filter_information f1 [info] aid fctx = .ok [] →
        fops.filter_information f2 [] aid fctx = .ok [] →
        Transformer.process_information_for_agent fops dops t aid [info]
            fctx dctx
          = .ok ([],
              { t with
                information_cache := assocInsert t.information_cache aid [] })) := by
  refine ⟨?_, ?_, ?_⟩
  · intro raw
    cases h1 : fops.filter_information f1 raw aid fctx with
    | error e => simp [applyFilters, h1, Except.bind]
    | ok l1 =>
      cases h2 : fops.filter_information f2 l1 aid fctx with
      | error e => simp [applyFilters, h1, h2, Except.bind]
      | ok l2 => simp [applyFilters, h1, h2, Except.bind]
  · intro i
    cases h1 : dops.distort_information d1 i aid dctx with
    | error e => simp [applyDistorters, h1, Except.bind]
    | ok j1 =>
      cases h2 : dops.distort_information d2 j1 aid dctx with
      | error e => simp [applyDistorters, h1, h2, Except.bind]
      | ok j2 => simp [applyDistorters, h1, h2, Except.bind]
  · intro t info hfilters h1 h2
    simp [Transformer.process_information_for_agent, hfilters,
      applyFilters, h1, h2, distortAll]

/-- Witness for C4 at a concrete transformer: filters `[false, true]` where
`false` rejects everything, and two distorters that fail whenever invoked;
the call still returns `ok` with the empty list and caches it. -/
theorem transformer_pipeline_order_and_rejection_witness :
    Transformer.process_information_for_agent testInformationFilterOps
        testInformationDistorterOps
        { filters := [false, true], distorters := [false, false],
          information_cache := [], cache_expiry_time := 100 }
        1 [Information.new testName 0 0 1 testName] (FilterContext.new 1)
        (DistortionContext.new 1)
      = .ok ([],
          { filters := [false, true], distorters := [false, false],
            information_cache := [(1, [])], cache_expiry_time := 100 }) := by
  have h := (transformer_pipeline_order_and_rejection
    testInformationFilterOps testInformationDistorterOps
    false true false false 1 (FilterContext.new 1)
    (DistortionContext.new 1)).2.2
    { filters := [false, true], distorters := [false, false],
      information_cache := [], cache_expiry_time := 100 }
    (Information.new testName 0 0 1 testName) rfl rfl rfl
  simpa [assocInsert] using h

lemma runExogenousProcesses_eq_collectChanges
    (eops : ExogenousProcessOps E) (new_time : SimulationTime) :
    ∀ l : List E,
      runExogenousProcesses eops new_time l
        = collectChanges eops new_time
            (l.filter (fun p => eops.is_active p new_time))
  | [] => by simp [runExogenousProcesses, collectChanges]
  | p :: rest => by
    by_cases h : eops.is_active p new_time
    · simp [runExogenousProcesses, collectChanges, h,
        runExogenousProcesses_eq_collectChanges eops new_time rest]
    · simp [runExogenousProcesses, h,
        runExogenousProcesses_eq_collectChanges eops new_time rest]

/-- C5. `Environment::update_to_time` runs every physical-asset update and
then, for every exogenous process whose `is_active(new_time)` holds, collects
its `EnvironmentChange` records concatenated in registration order; on
success the environment clock becomes `new_time` and the concatenation is
returned; an error propagates immediately, leaving the clock unchanged while
the asset updates already applied persist (no rollback). -/
theorem environment_update_to_time_spec
    (pops : PhysicalAssetOps P) (eops : ExogenousProcessOps E)
    (env : Environment P K N R E) (new_time : SimulationTime) :
    ((Environment.update_to_time pops eops env new_time).2.current_time
      = if (Environment.update_to_time pops eops env new_time).1.isOk
        then new_time else env.current_time)
    ∧ (runExogenousProcesses eops new_time env.exogenous_processes
      = collectChanges eops new_time
          (env.exogenous_processes.filter
            (fun p => eops.is_active p new_time)))
    ∧ ((updatePhysicalAssets pops new_time env.physical_assets).1 = .ok () →
       ∀ e, runExogenousProcesses eops new_time env.exogenous_processes
          = .error e →
        (Environment.update_to_time pops eops env new_time).1 = .error e
        ∧ (Environment.update_to_time pops eops env new_time).2.physical_assets
            = (updatePhysicalAssets pops new_time env.physical_assets).2)
    ∧ (∀ cs, runExogenousProcesses eops new_time env.exogenous_processes
          = .ok cs →
       (updatePhysicalAssets pops new_time env.physical_assets).1 = .ok () →
        (Environment.update_to_time pops eops env new_time).1 = .ok cs
        ∧ (Environment.update_to_time pops eops env new_time).2.physical_assets
            = (updatePhysicalAssets pops new_time env.physical_assets).2) := by
  refine ⟨?_, runExogenousProcesses_eq_collectChanges eops new_time _, ?_, ?_⟩
  · cases h1 : (updatePhysicalAssets pops new_time env.physical_assets).1 with
    | error e => simp [Environment.update_to_time, h1, Except.isOk, Except.toBool]
    | ok u =>
      cases h2 : runExogenousProcesses eops new_time
          env.exogenous_processes with
      | error e =>
        simp [Environment.update_to_time, h1, h2, Except.isOk, Except.toBool]
      | ok cs =>
        simp [Environment.update_to_time, h1, h2, Except.isOk, Except.toBool]
  · intro h1 e h2
    simp [Environment.update_to_time, h1, h2]
  · intro cs h2 h1
    simp [Environment.update_to_time, h1, h2]

/-- Witness for C5 at a concrete environment: no assets, three processes —
an active one yielding one change, an inactive one, and an active failing
one — so the call fails, the clock stays at `5`, and applying the theorem
also evaluates the process stage against the filtered collection. -/
theorem environment_update_to_time_spec_witness :
    (Environment.update_to_time unitPhysicalAssetOps testExogenousProcessOps
        (testEnvironment
          [(true, some [testChange testName]), (false, some []),
           (true, none)]) 7).1
      = .error (.Environment testFailureMsg)
    ∧ (Environment.update_to_time unitPhysicalAssetOps testExogenousProcessOps
        (testEnvironment
          [(true, some [testChange testName]), (false, some []),
           (true, none)]) 7).2.current_time = 5
    ∧ (Environment.update_to_time unitPhysicalAssetOps testExogenousProcessOps
        (testEnvironment
          [(true, some [testChange testName]), (false, some []),
           (true, none)]) 7).2.physical_assets = [] := by
  have h := environment_update_to_time_spec unitPhysicalAssetOps
    testExogenousProcessOps
    (testEnvironment
      [(true, some [testChange testName]), (false, some []), (true, none)]) 7
  have herr := h.2.2.1 rfl (.Environment testFailureMsg) rfl
  refine ⟨herr.1, ?_, herr.2⟩
  have hclock := h.1
  rw [herr.1] at hclock
  simpa [testEnvironment, Except.isOk, Except.toBool] using hclock

/-- C9. `ConsumerAgent::process_trigger` is the only writer of the choice
history, and per call: when it returns `Some choice` the history is extended
by exactly one record stamped with the call's `current_time` (so the length
grows by one and `last_choice_time` becomes that time), and when it returns
`Ok None` the agent — history and `last_choice_time` included — is exactly
as before. -/
theorem process_trigger_history_spec
    (cops : ChoiceModuleOps C Choice Ctx)
    (agent : ConsumerAgent A C Choice) (trigger : TriggerType)
    (choices : List Choice) (context : Ctx)
    (current_time : SimulationTime) :
    (∀ choice,
      (ConsumerAgent.process_trigger cops agent trigger choices context
          current_time).1 = .ok (some choice) →
        ∃ scores,
          (ConsumerAgent.process_trigger cops agent trigger choices context
              current_time).2.choice_history
            = agent.choice_history
              ++ [{ choice := choice, time := current_time,
                    trigger := trigger, evaluation_scores := scores }]
          ∧ (ConsumerAgent.process_trigger cops agent trigger choices context
              current_time).2.choice_history.length
            = agent.choice_history.length + 1
          ∧ (ConsumerAgent.process_trigger cops agent trigger choices context
              current_time).2.last_choice_time = some current_time)
    ∧ ((ConsumerAgent.process_trigger cops agent trigger choices context
          current_time).1 = .ok none →
        (ConsumerAgent.process_trigger cops agent trigger choices context
          current_time).2 = agent) := by
  by_cases hshould :
      cops.should_make_choice agent.choice_module trigger context
  · cases hmake :
        cops.make_choice agent.choice_module choices context trigger with
    | error e =>
      refine ⟨fun choice h => ?_, fun h => ?_⟩ <;>
        simp [ConsumerAgent.process_trigger, hshould, hmake] at h
    | ok chosen =>
      cases chosen with
      | none =>
        refine ⟨fun choice h => ?_, fun _ => ?_⟩
        · simp [ConsumerAgent.process_trigger, hshould, hmake] at h
        · simp [ConsumerAgent.process_trigger, hshould, hmake]
      | some c =>
        cases heval : cops.evaluate_choice agent.choice_module c
            (cops.evaluation_dimensions agent.choice_module) context with
        | error e =>
          refine ⟨fun choice h => ?_, fun h => ?_⟩ <;>
            simp [ConsumerAgent.process_trigger, hshould, hmake, heval] at h
        | ok scores =>
          refine ⟨fun choice h => ?_, fun h => ?_⟩
          · have hc : c = choice := by
              simpa [ConsumerAgent.process_trigger, hshould, hmake, heval]
                using h
            subst hc
            exact ⟨scores, by
              simp [ConsumerAgent.process_trigger, hshould, hmake, heval]⟩
          · simp [ConsumerAgent.process_trigger, hshould, hmake, heval] at h
  · refine ⟨fun choice h => ?_, fun _ => ?_⟩
    · simp [ConsumerAgent.process_trigger, hshould] at h
    · simp [ConsumerAgent.process_trigger, hshould]

/-- Witness for C9: the willing test agent offered one choice appends one
record at time `5`; the unwilling one returns `None` and is unchanged. -/
theorem process_trigger_history_spec_witness :
    (∃ scores,
      (ConsumerAgent.process_trigger testChoiceModuleOps
          (testAgentChoice true) .Temporal [()] () 5).2.choice_history
        = (testAgentChoice true).choice_history
          ++ [{ choice := (), time := 5, trigger := .Temporal,
                evaluation_scores := scores }]
      ∧ (ConsumerAgent.process_trigger testChoiceModuleOps
          (testAgentChoice true) .Temporal [()] () 5).2.choice_history.length
        = (testAgentChoice true).choice_history.length + 1
      ∧ (ConsumerAgent.process_trigger testChoiceModuleOps
          (testAgentChoice true) .Temporal [()] () 5).2.last_choice_time
        = some 5)
    ∧ (ConsumerAgent.process_trigger testChoiceModuleOps
        (testAgentChoice false) .Temporal [()] () 5).2
      = testAgentChoice false := by
  constructor
  · exact (process_trigger_history_spec testChoiceModuleOps
      (testAgentChoice true) .Temporal [()] () 5).1 () rfl
  · exact (process_trigger_history_spec testChoiceModuleOps
      (testAgentChoice false) .Temporal [()] () 5).2 rfl

lemma stop_noop {m : ConsumerChoiceModel A C Choice P K N R E F D}
    (h : m.state = ModelState.Completed ∨ m.state = ModelState.Error) :
    ConsumerChoiceModel.stop m = (.ok (), m) := by
  simp [ConsumerChoiceModel.stop, h]

lemma update_statistics_fields
    (m : ConsumerChoiceModel A C Choice P K N R E F D) :
    m.update_statistics.state = m.state
    ∧ m.update_statistics.current_time = m.current_time
    ∧ m.update_statistics.configuration = m.configuration
    ∧ m.update_statistics.agents = m.agents
    ∧ m.update_statistics.event_bus = m.event_bus
    ∧ m.update_statistics.environment = m.environment
    ∧ m.update_statistics.information_transformer = m.information_transformer
    ∧ m.update_statistics.statistics.simulation_duration = m.current_time := by
  by_cases hag : m.agents.length > 0 <;>
    simp [ConsumerChoiceModel.update_statistics, hag]

/-- C6. `ConsumerChoiceModel::start` from the `Initialized` state fails
exactly when the agent set is empty (and from any other state it also
fails); on success the state becomes `Running`, the clock is reset to `0`,
and `SimulationStarted` is emitted exactly when event logging is enabled; on
failure the model — state and clock included — is unchanged. -/
theorem start_fails_iff_no_agents
    (m : ConsumerChoiceModel A C Choice P K N R E F D) :
    (m.state = ModelState.Initialized →
      ((ConsumerChoiceModel.start m).1.isOk = true ↔ m.agents ≠ []))
    ∧ (m.state ≠ ModelState.Initialized →
        (ConsumerChoiceModel.start m).1 = .error (.Generic startStateMsg))
    ∧ ((ConsumerChoiceModel.start m).1.isOk = true →
        (ConsumerChoiceModel.start m).2.state = ModelState.Running
        ∧ (ConsumerChoiceModel.start m).2.current_time = 0
        ∧ (m.configuration.event_logging_enabled = true →
            (ConsumerChoiceModel.start m).2.event_bus
              = m.event_bus.emit (ModelEvent.simulation_started 0))
        ∧ (m.configuration.event_logging_enabled = false →
            (ConsumerChoiceModel.start m).2.event_bus = m.event_bus))
    ∧ ((ConsumerChoiceModel.start m).1.isOk = false →
        (ConsumerChoiceModel.start m).2 = m) := by
  by_cases hst : m.state = ModelState.Initialized
  · by_cases hemp : m.agents.isEmpty
    · have hres : ConsumerChoiceModel.start m
          = (.error (.Generic startNoAgentsMsg), m) := by
        simp [ConsumerChoiceModel.start, hst, hemp]
      have hnil : m.agents = [] := by simpa using hemp
      refine ⟨fun _ => ?_, fun h => absurd hst h, fun h => ?_, fun _ => ?_⟩
      · simp [hres, hnil, Except.isOk, Except.toBool]
      · simp [hres, Except.isOk, Except.toBool] at h
      · simp [hres]
    · have hne : m.agents ≠ [] := by
        intro hn; exact hemp (by simp [hn])
      by_cases hlog : m.configuration.event_logging_enabled
      · have hres : ConsumerChoiceModel.start m
            = (.ok (),
               { m with state := ModelState.Running, current_time := 0,
                        event_bus := m.event_bus.emit
                          (ModelEvent.simulation_started 0) }) := by
          simp [ConsumerChoiceModel.start, hst, hemp, hlog]
        refine ⟨fun _ => ?_, fun h => absurd hst h, fun _ => ?_, fun h => ?_⟩
        · simp [hres, hne, Except.isOk, Except.toBool]
        · exact ⟨by simp [hres], by simp [hres], fun _ => by simp [hres],
            fun hno => absurd hlog (by simp [hno])⟩
        · simp [hres, Except.isOk, Except.toBool] at h
      · have hres : ConsumerChoiceModel.start m
            = (.ok (),
               { m with state := ModelState.Running, current_time := 0 }) := by
          simp [ConsumerChoiceModel.start, hst, hemp, hlog]
        refine ⟨fun _ => ?_, fun h => absurd hst h, fun _ => ?_, fun h => ?_⟩
        · simp [hres, hne, Except.isOk, Except.toBool]
        · exact ⟨by simp [hres], by simp [hres],
            fun hyes => absurd hyes hlog, fun _ => by simp [hres]⟩
        · simp [hres, Except.isOk, Except.toBool] at h
  · have hres : ConsumerChoiceModel.start m
        = (.error (.Generic startStateMsg), m) := by
      simp [ConsumerChoiceModel.start, hst]
    refine ⟨fun h => absurd h hst, fun _ => ?_, fun h => ?_, fun _ => ?_⟩
    · simp [hres]
    · simp [hres, Except.isOk, Except.toBool] at h
    · simp [hres]

/-- Witness for C6: starting the concrete one-agent `Initialized` model
succeeds, moves it to `Running`, resets its clock from `3` to `0` and logs
`SimulationStarted`. -/
theorem start_fails_iff_no_agents_witness :
    ((ConsumerChoiceModel.start (testModel .Initialized 3 1 10)).1.isOk = true)
    ∧ (ConsumerChoiceModel.start
        (testModel .Initialized 3 1 10)).2.state = ModelState.Running
    ∧ (ConsumerChoiceModel.start
        (testModel .Initialized 3 1 10)).2.current_time = 0
    ∧ (ConsumerChoiceModel.start (testModel .Initialized 3 1 10)).2.event_bus
      = (testModel .Initialized 3 1 10).event_bus.emit
          (ModelEvent.simulation_started 0) := by
  have h := start_fails_iff_no_agents (testModel .Initialized 3 1 10)
  have hok : (ConsumerChoiceModel.start (testModel .Initialized 3 1 10)).1.isOk
      = true := (h.1 rfl).2 (by simp [testModel])
  have hsucc := h.2.2.1 hok
  exact ⟨hok, hsucc.1, hsucc.2.1, hsucc.2.2.1 rfl⟩

/-- C8. `ConsumerChoiceModel::stop` always returns `Ok`: from `Completed` or
`Error` it is a no-op that changes nothing and emits nothing; otherwise the
state becomes `Completed`, statistics are finalized at the current clock,
and `SimulationCompleted` is emitted when event logging is enabled — and a
second `stop` in a row changes nothing (so no duplicate event), yielding
`Completed` both times whenever the model was not in `Error`. -/
theorem stop_idempotent_spec
    (m : ConsumerChoiceModel A C Choice P K N R E F D) :
    ((ConsumerChoiceModel.stop m).1 = .ok ())
    ∧ ((m.state = ModelState.Completed ∨ m.state = ModelState.Error) →
        (ConsumerChoiceModel.stop m).2 = m)
    ∧ (¬ (m.state = ModelState.Completed ∨ m.state = ModelState.Error) →
        (ConsumerChoiceModel.stop m).2.state = ModelState.Completed
        ∧ (ConsumerChoiceModel.stop m).2.current_time = m.current_time
        ∧ (ConsumerChoiceModel.stop m).2.statistics.simulation_duration
            = m.current_time
        ∧ (m.configuration.event_logging_enabled = true →
            (ConsumerChoiceModel.stop m).2.event_bus
              = m.event_bus.emit
                  (ModelEvent.simulation_completed m.current_time))
        ∧ (m.configuration.event_logging_enabled = false →
            (ConsumerChoiceModel.stop m).2.event_bus = m.event_bus))
    ∧ ((ConsumerChoiceModel.stop (ConsumerChoiceModel.stop m).2).2
        = (ConsumerChoiceModel.stop m).2)
    ∧ (m.state ≠ ModelState.Error →
        (ConsumerChoiceModel.stop m).2.state = ModelState.Completed
        ∧ (ConsumerChoiceModel.stop
            (ConsumerChoiceModel.stop m).2).2.state
          = ModelState.Completed) := by
  by_cases hstop : m.state = ModelState.Completed ∨ m.state = ModelState.Error
  · have hres := stop_noop hstop
    refine ⟨by simp [hres], fun _ => by simp [hres], fun h => absurd hstop h,
      ?_, fun hne => ?_⟩
    · rw [hres]
      simp [hres]
    · have hc : m.state = ModelState.Completed := by
        rcases hstop with h | h
        · exact h
        · exact absurd h hne
      constructor
      · simp [hres, hc]
      · rw [hres]
        simp [hres, hc]
  · have hu := update_statistics_fields
      ({ m with state := ModelState.Completed } :
        ConsumerChoiceModel A C Choice P K N R E F D)
    by_cases hlog : m.configuration.event_logging_enabled
    · have hres : ConsumerChoiceModel.stop m
          = (.ok (),
             { ({ m with
                  state := ModelState.Completed }).update_statistics with
                event_bus := m.event_bus.emit
                  (ModelEvent.simulation_completed m.current_time) }) := by
        rw [ConsumerChoiceModel.stop]
        simp only [hstop, if_false, ite_false]
        simp [hu.2.2.1, hu.2.1, hu.2.2.2.2.1, hlog]
      have hstate2 : (ConsumerChoiceModel.stop m).2.state
          = ModelState.Completed := by
        simp [hres, hu.1]
      have hsecond := stop_noop (m := (ConsumerChoiceModel.stop m).2)
        (Or.inl hstate2)
      refine ⟨by simp [hres], fun h => absurd h hstop, fun _ => ?_,
        by rw [hsecond], fun _ => ⟨hstate2, by rw [hsecond]; exact hstate2⟩⟩
      exact ⟨hstate2, by simp [hres, hu.2.1], by simp [hres, hu.2.2.2.2.2.2.2],
        fun _ => by simp [hres], fun hno => absurd hlog (by simp [hno])⟩
    · have hres : ConsumerChoiceModel.stop m
          = (.ok (),
             ({ m with state := ModelState.Completed }).update_statistics) := by
        rw [ConsumerChoiceModel.stop]
        simp only [hstop, if_false, ite_false]
        simp [hu.2.2.1, hlog]
      have hstate2 : (ConsumerChoiceModel.stop m).2.state
          = ModelState.Completed := by
        simp [hres, hu.1]
      have hsecond := stop_noop (m := (ConsumerChoiceModel.stop m).2)
        (Or.inl hstate2)
      refine ⟨by simp [hres], fun h => absurd h hstop, fun _ => ?_,
        by rw [hsecond], fun _ => ⟨hstate2, by rw [hsecond]; exact hstate2⟩⟩
      exact ⟨hstate2, by simp [hres, hu.2.1], by simp [hres, hu.2.2.2.2.2.2.2],
        fun hyes => absurd hyes hlog,
        fun _ => by simp [hres, hu.2.2.2.2.1]⟩

/-- Witness for C8: stopping the concrete `Running` model completes it,
logs one `SimulationCompleted` at time `4`, and a second `stop` changes
nothing. -/
theorem stop_idempotent_spec_witness :
    (ConsumerChoiceModel.stop (testModel .Running 4 1 10)).1 = .ok ()
    ∧ (ConsumerChoiceModel.stop (testModel .Running 4 1 10)).2.state
      = ModelState.Completed
    ∧ (ConsumerChoiceModel.stop (testModel .Running 4 1 10)).2.event_bus
      = (testModel .Running 4 1 10).event_bus.emit
          (ModelEvent.simulation_completed 4)
    ∧ (ConsumerChoiceModel.stop
        (ConsumerChoiceModel.stop (testModel .Running 4 1 10)).2).2
      = (ConsumerChoiceModel.stop (testModel .Running 4 1 10)).2 := by
  have h := stop_idempotent_spec (testModel .Running 4 1 10)
  have hno : ¬ ((testModel .Running 4 1 10).state = ModelState.Completed
      ∨ (testModel .Running 4 1 10).state = ModelState.Error) := by
    simp [testModel]
  have hrun := h.2.2.1 hno
  exact ⟨h.1, hrun.1, hrun.2.2.2.1 rfl, h.2.2.2.1⟩

lemma checkRequiredPsychological_ok_iff (psychological : List (String × Rat)) :
    ∀ required : List String,
      checkRequiredPsychological required psychological = .ok ()
        ↔ ∀ r ∈ required, assocContains psychological r = true
  | [] => by simp [checkRequiredPsychological]
  | r :: rest => by
    by_cases h : assocContains psychological r
    · simp [checkRequiredPsychological, h,
        checkRequiredPsychological_ok_iff psychological rest]
    · simp [checkRequiredPsychological, h]

lemma checkRequiredSocioeconomic_ok_iff (socioeconomic : List (String × Rat)) :
    ∀ required : List String,
      checkRequiredSocioeconomic required socioeconomic = .ok ()
        ↔ ∀ r ∈ required, assocContains socioeconomic r = true
  | [] => by simp [checkRequiredSocioeconomic]
  | r :: rest => by
    by_cases h : assocContains socioeconomic r
    · simp [checkRequiredSocioeconomic, h,
        checkRequiredSocioeconomic_ok_iff socioeconomic rest]
    · simp [checkRequiredSocioeconomic, h]

lemma checkPsychologicalValues_ok_iff :
    ∀ l : List (String × Rat),
      checkPsychologicalValues l = .ok ()
        ↔ ∀ p ∈ l, 0 ≤ p.2 ∧ p.2 ≤ 1
  | [] => by simp [checkPsychologicalValues]
  | (n, v) :: rest => by
    by_cases h : v < 0 ∨ v > 1
    · have : ¬ (0 ≤ v ∧ v ≤ 1) := by
        rcases h with h | h
        · exact fun hc => absurd hc.1 (not_le.mpr h)
        · exact fun hc => absurd hc.2 (not_le.mpr h)
      simp [checkPsychologicalValues, h, this]
    · push_neg at h
      simp [checkPsychologicalValues, not_or.mpr
          ⟨not_lt.mpr h.1, not_lt.mpr h.2⟩,
        checkPsychologicalValues_ok_iff rest, h.1, h.2]

lemma checkSocioeconomicValues_ok_iff :
    ∀ l : List (String × Rat),
      checkSocioeconomicValues l = .ok () ↔ ∀ p ∈ l, 0 ≤ p.2
  | [] => by simp [checkSocioeconomicValues]
  | (n, v) :: rest => by
    by_cases h : v < 0
    · simp [checkSocioeconomicValues, h, not_le.mpr h]
    · simp [checkSocioeconomicValues, h, checkSocioeconomicValues_ok_iff rest,
        not_lt.mp h]

lemma validate_eq_ok_iff_stages (aops : AgentAttributesOps A)
    (v : ModelValidator) (attributes : A) :
    ModelValidator.validate_agent_attributes aops v attributes = .ok ()
      ↔ (checkRequiredPsychological v.rules.required_psychological_attributes
            (aops.psychological_attributes attributes) = .ok ()
         ∧ checkRequiredSocioeconomic v.rules.required_socioeconomic_attributes
            (aops.socioeconomic_attributes attributes) = .ok ()
         ∧ checkPsychologicalValues (aops.psychological_attributes attributes)
            = .ok ()
         ∧ checkSocioeconomicValues (aops.socioeconomic_attributes attributes)
            = .ok ()) := by
  unfold ModelValidator.validate_agent_attributes
  cases h1 : checkRequiredPsychological
      v.rules.required_psychological_attributes
      (aops.psychological_attributes attributes) with
  | error e => simp [h1]
  | ok u =>
    cases u
    cases h2 : checkRequiredSocioeconomic
        v.rules.required_socioeconomic_attributes
        (aops.socioeconomic_attributes attributes) with
    | error e => simp [h1, h2]
    | ok u =>
      cases u
      cases h3 : checkPsychologicalValues
          (aops.psychological_attributes attributes) with
      | error e => simp [h1, h2, h3]
      | ok u =>
        cases u
        simp [h1, h2, h3]

/-- `ModelValidator::validate_agent_attributes` succeeds exactly when every
required attribute is present, every psychological value lies in `[0, 1]`
and every socioeconomic value is non-negative. -/
lemma validate_agent_attributes_ok_iff (aops : AgentAttributesOps A)
    (v : ModelValidator) (attributes : A) :
    ModelValidator.validate_agent_attributes aops v attributes = .ok ()
      ↔ ((∀ r ∈ v.rules.required_psychological_attributes,
            assocContains (aops.psychological_attributes attributes) r = true)
         ∧ (∀ r ∈ v.rules.required_socioeconomic_attributes,
            assocContains (aops.socioeconomic_attributes attributes) r = true)
         ∧ (∀ p ∈ aops.psychological_attributes attributes,
            0 ≤ p.2 ∧ p.2 ≤ 1)
         ∧ (∀ p ∈ aops.socioeconomic_attributes attributes, 0 ≤ p.2)) := by
  rw [validate_eq_ok_iff_stages, checkRequiredPsychological_ok_iff,
    checkRequiredSocioeconomic_ok_iff, checkPsychologicalValues_ok_iff,
    checkSocioeconomicValues_ok_iff]

/-- C7. `ConsumerChoiceModel::add_agent` succeeds exactly when the model is
`Initialized`, no agent with the same ID is present, and — when validation
is enabled — every required attribute is present, every psychological value
lies within `[0, 1]` inclusive and every socioeconomic value is
non-negative; on failure nothing is inserted and the model is unchanged,
on success exactly the new agent is inserted. -/
theorem add_agent_validation_spec (ops : ModelOps A P E F D)
    (m : ConsumerChoiceModel A C Choice P K N R E F D)
    (agent : ConsumerAgent A C Choice) :
    ((ConsumerChoiceModel.add_agent ops m agent).1.isOk = true ↔
      (m.state = ModelState.Initialized
       ∧ assocContains m.agents
           (ops.agent_attributes.agent_id agent.attributes) = false
       ∧ (m.configuration.validation_enabled = true →
           ((∀ r ∈ m.validator.rules.required_psychological_attributes,
               assocContains
                 (ops.agent_attributes.psychological_attributes
                   agent.attributes) r = true)
            ∧ (∀ r ∈ m.validator.rules.required_socioeconomic_attributes,
               assocContains
                 (ops.agent_attributes.socioeconomic_attributes
                   agent.attributes) r = true)
            ∧ (∀ p ∈ ops.agent_attributes.psychological_attributes
                 agent.attributes, 0 ≤ p.2 ∧ p.2 ≤ 1)
            ∧ (∀ p ∈ ops.agent_attributes.socioeconomic_attributes
                 agent.attributes, 0 ≤ p.2)))))
    ∧ ((ConsumerChoiceModel.add_agent ops m agent).1.isOk = false →
        (ConsumerChoiceModel.add_agent ops m agent).2 = m)
    ∧ ((ConsumerChoiceModel.add_agent ops m agent).1.isOk = true →
        (ConsumerChoiceModel.add_agent ops m agent).2.agents
          = assocInsert m.agents
              (ops.agent_attributes.agent_id agent.attributes) agent) := by
  by_cases hst : m.state = ModelState.Initialized
  · by_cases hdup : assocContains m.agents
        (ops.agent_attributes.agent_id agent.attributes)
    · have hres : ConsumerChoiceModel.add_agent ops m agent
          = (.error (.Agent agentExistsMsg), m) := by
        simp [ConsumerChoiceModel.add_agent, hst, hdup]
      refine ⟨?_, fun _ => by simp [hres], fun h => ?_⟩
      · simp [hres, Except.isOk, Except.toBool, hdup]
      · simp [hres, Except.isOk, Except.toBool] at h
    · have hdupf : assocContains m.agents
          (ops.agent_attributes.agent_id agent.attributes) = false :=
        Bool.not_eq_true _ ▸ (by simpa using hdup)
      by_cases hven : m.configuration.validation_enabled
      · cases hv : m.validator.validate_agent_attributes
            ops.agent_attributes agent.attributes with
        | error e =>
          have hres : ConsumerChoiceModel.add_agent ops m agent
              = (.error e, m) := by
            simp [ConsumerChoiceModel.add_agent, hst, hdup, hven, hv]
          refine ⟨?_, fun _ => by simp [hres], fun h => ?_⟩
          · simp only [hres, Except.isOk, Except.toBool]
            constructor
            · intro h; cases h
            · rintro ⟨-, -, himp⟩
              have := (validate_agent_attributes_ok_iff
                ops.agent_attributes m.validator agent.attributes).mpr
                (himp hven)
              rw [this] at hv
              cases hv
          · simp [hres, Except.isOk, Except.toBool] at h
        | ok u =>
          cases u
          have hcond := (validate_agent_attributes_ok_iff
            ops.agent_attributes m.validator agent.attributes).mp hv
          by_cases hlog : m.configuration.event_logging_enabled
          · have hres : ConsumerChoiceModel.add_agent ops m agent
                = (.ok (),
                   { m with
                      agents := assocInsert m.agents
                        (ops.agent_attributes.agent_id agent.attributes)
                        agent,
                      event_bus := m.event_bus.emit
                        (ModelEvent.agent_added
                          (ops.agent_attributes.agent_id agent.attributes)
                          m.current_time) }) := by
              simp [ConsumerChoiceModel.add_agent, hst, hdup, hven, hv, hlog]
            refine ⟨?_, fun h => ?_, fun _ => by simp [hres]⟩
            · simp [hres, Except.isOk, Except.toBool, hst, hdupf]
              exact fun _ => ⟨hcond.1, hcond.2.1,
                fun a b hab => hcond.2.2.1 (a, b) hab,
                fun a b hab => hcond.2.2.2 (a, b) hab⟩
            · simp [hres, Except.isOk, Except.toBool] at h
          · have hres : ConsumerChoiceModel.add_agent ops m agent
                = (.ok (),
                   { m with
                      agents := assocInsert m.agents
                        (ops.agent_attributes.agent_id agent.attributes)
                        agent }) := by
              simp [ConsumerChoiceModel.add_agent, hst, hdup, hven, hv, hlog]
            refine ⟨?_, fun h => ?_, fun _ => by simp [hres]⟩
            · simp [hres, Except.isOk, Except.toBool, hst, hdupf]
              exact fun _ => ⟨hcond.1, hcond.2.1,
                fun a b hab => hcond.2.2.1 (a, b) hab,
                fun a b hab => hcond.2.2.2 (a, b) hab⟩
            · simp [hres, Except.isOk, Except.toBool] at h
      · by_cases hlog : m.configuration.event_logging_enabled
        · have hres : ConsumerChoiceModel.add_agent ops m agent
              = (.ok (),
                 { m with
                    agents := assocInsert m.agents
                      (ops.agent_attributes.agent_id agent.attributes)
                      agent,
                    event_bus := m.event_bus.emit
                      (ModelEvent.agent_added
                        (ops.agent_attributes.agent_id agent.attributes)
                        m.current_time) }) := by
            simp [ConsumerChoiceModel.add_agent, hst, hdup, hven, hlog]
          refine ⟨?_, fun h => ?_, fun _ => by simp [hres]⟩
          · simp [hres, Except.isOk, Except.toBool, hst, hdupf]
            exact fun h => absurd h hven
          · simp [hres, Except.isOk, Except.toBool] at h
        · have hres : ConsumerChoiceModel.add_agent ops m agent
              = (.ok (),
                 { m with
                    agents := assocInsert m.agents
                      (ops.agent_attributes.agent_id agent.attributes)
                      agent }) := by
            simp [ConsumerChoiceModel.add_agent, hst, hdup, hven, hlog]
          refine ⟨?_, fun h => ?_, fun _ => by simp [hres]⟩
          · simp [hres, Except.isOk, Except.toBool, hst, hdupf]
            exact fun h => absurd h hven
          · simp [hres, Except.isOk, Except.toBool] at h
  · have hres : ConsumerChoiceModel.add_agent ops m agent
        = (.error (.Generic addAgentStateMsg), m) := by
      simp [ConsumerChoiceModel.add_agent, hst]
    refine ⟨?_, fun _ => by simp [hres], fun h => ?_⟩
    · simp [hres, Except.isOk, Except.toBool, hst]
    · simp [hres, Except.isOk, Except.toBool] at h

/-- Witness for C7: on the concrete `Initialized` model, adding an agent
whose psychological values are exactly `1` and `0` succeeds and inserts it,
while adding one with value `1.5` fails and leaves the model unchanged. -/
theorem add_agent_validation_spec_witness :
    (ConsumerChoiceModel.add_agent unitModelOps
        (testModel .Initialized 0 1 10) testAgentBoundary).1.isOk = true
    ∧ (ConsumerChoiceModel.add_agent unitModelOps
        (testModel .Initialized 0 1 10) testAgentOutOfRange).1.isOk = false
    ∧ (ConsumerChoiceModel.add_agent unitModelOps
        (testModel .Initialized 0 1 10) testAgentOutOfRange).2
      = testModel .Initialized 0 1 10 := by
  have hpass := add_agent_validation_spec unitModelOps
    (testModel .Initialized 0 1 10) testAgentBoundary
  have hfail := add_agent_validation_spec unitModelOps
    (testModel .Initialized 0 1 10) testAgentOutOfRange
  have hok : (ConsumerChoiceModel.add_agent unitModelOps
      (testModel .Initialized 0 1 10) testAgentBoundary).1.isOk = true := by
    refine hpass.1.mpr ⟨rfl, rfl, fun _ => ?_⟩
    refine ⟨?_, ?_, ?_, ?_⟩ <;>
      simp [testModel, ModelValidator.new, ValidationRules.new,
        basicAgentAttributesOps, unitModelOps, testAgentBoundary,
        ConsumerAgent.new]
  have hnotok : ¬ ((ConsumerChoiceModel.add_agent unitModelOps
      (testModel .Initialized 0 1 10) testAgentOutOfRange).1.isOk = true) := by
    intro hh
    have hcond := (hfail.1.mp hh).2.2 rfl
    have hbad := hcond.2.2.1 (testName, 3/2)
      (by simp [unitModelOps, basicAgentAttributesOps, testAgentOutOfRange,
        ConsumerAgent.new])
    have : ¬ ((3 : Rat)/2 ≤ 1) := by norm_num
    exact this hbad.2
  have hfalse : (ConsumerChoiceModel.add_agent unitModelOps
      (testModel .Initialized 0 1 10) testAgentOutOfRange).1.isOk = false := by
    cases hiso : (ConsumerChoiceModel.add_agent unitModelOps
        (testModel .Initialized 0 1 10) testAgentOutOfRange).1.isOk with
    | false => rfl
    | true => exact absurd hiso hnotok
  exact ⟨hok, hfalse, hfail.2.1 hfalse⟩

lemma stop_fields (m : ConsumerChoiceModel A C Choice P K N R E F D) :
    (ConsumerChoiceModel.stop m).1 = .ok ()
    ∧ (ConsumerChoiceModel.stop m).2.current_time = m.current_time
    ∧ (ConsumerChoiceModel.stop m).2.configuration = m.configuration
    ∧ (ConsumerChoiceModel.stop m).2.agents = m.agents
    ∧ (m.state ≠ ModelState.Error →
        (ConsumerChoiceModel.stop m).2.state = ModelState.Completed) := by
  by_cases hstop : m.state = ModelState.Completed ∨ m.state = ModelState.Error
  · have hres := stop_noop hstop
    refine ⟨by simp [hres], by simp [hres], by simp [hres], by simp [hres],
      fun hne => ?_⟩
    rcases hstop with h | h
    · simp [hres, h]
    · exact absurd h hne
  · have hu := update_statistics_fields
      ({ m with state := ModelState.Completed } :
        ConsumerChoiceModel A C Choice P K N R E F D)
    by_cases hlog : m.configuration.event_logging_enabled
    · have hres : ConsumerChoiceModel.stop m
          = (.ok (),
             { ({ m with
                  state := ModelState.Completed }).update_statistics with
                event_bus := m.event_bus.emit
                  (ModelEvent.simulation_completed m.current_time) }) := by
        rw [ConsumerChoiceModel.stop]
        simp only [hstop, if_false, ite_false]
        simp [hu.2.2.1, hu.2.1, hu.2.2.2.2.1, hlog]
      exact ⟨by simp [hres], by simp [hres, hu.2.1],
        by simp [hres, hu.2.2.1], by simp [hres, hu.2.2.2.1],
        fun _ => by simp [hres, hu.1]⟩
    · have hres : ConsumerChoiceModel.stop m
          = (.ok (),
             ({ m with state := ModelState.Completed }).update_statistics) := by
        rw [ConsumerChoiceModel.stop]
        simp only [hstop, if_false, ite_false]
        simp [hu.2.2.1, hlog]
      exact ⟨by simp [hres], by simp [hres, hu.2.1],
        by simp [hres, hu.2.2.1], by simp [hres, hu.2.2.2.1],
        fun _ => by simp [hres, hu.1]⟩

lemma step_not_running (ops : ModelOps A P E F D)
    {m : ConsumerChoiceModel A C Choice P K N R E F D}
    (hst : m.state ≠ ModelState.Running) :
    ConsumerChoiceModel.step ops m = (.error (.Generic stepStateMsg), m) := by
  simp [ConsumerChoiceModel.step, hst]

lemma step_boundary (ops : ModelOps A P E F D)
    {m : ConsumerChoiceModel A C Choice P K N R E F D}
    (hst : m.state = ModelState.Running)
    (hgt : m.current_time + m.configuration.time_step
      > m.configuration.max_simulation_time) :
    ConsumerChoiceModel.step ops m = (.ok (), (ConsumerChoiceModel.stop m).2) := by
  have hok := (stop_fields m).1
  rw [ConsumerChoiceModel.step]
  simp [hst, hgt, hok]

lemma step_state_time (ops : ModelOps A P E F D)
    (m : ConsumerChoiceModel A C Choice P K N R E F D) :
    ((ConsumerChoiceModel.step ops m).1.isOk = true →
       ((¬ (m.current_time + m.configuration.time_step
            > m.configuration.max_simulation_time)) →
          (ConsumerChoiceModel.step ops m).2.current_time
            = m.current_time + m.configuration.time_step)
       ∧ ((m.current_time + m.configuration.time_step
            > m.configuration.max_simulation_time) →
          (ConsumerChoiceModel.step ops m).2.current_time = m.current_time))
    ∧ (∀ e, (ConsumerChoiceModel.step ops m).1 = .error e →
        (ConsumerChoiceModel.step ops m).2.state = m.state
        ∧ (ConsumerChoiceModel.step ops m).2.current_time = m.current_time) := by
  by_cases hst : m.state = ModelState.Running
  · by_cases hgt : m.current_time + m.configuration.time_step
        > m.configuration.max_simulation_time
    · have hres := step_boundary ops hst hgt
      have hf := stop_fields m
      refine ⟨fun _ => ⟨fun hc => absurd hgt hc, fun _ => ?_⟩, fun e he => ?_⟩
      · rw [hres]; exact hf.2.1
      · rw [hres] at he; cases he
    · cases henv : (Environment.update_to_time ops.physical_asset
          ops.exogenous_process m.environment
          (m.current_time + m.configuration.time_step)).1 with
      | error e' =>
        have hres : ConsumerChoiceModel.step ops m
            = (.error e',
               { m with environment :=
                  (Environment.update_to_time ops.physical_asset
                    ops.exogenous_process m.environment
                    (m.current_time + m.configuration.time_step)).2 }) := by
          rw [ConsumerChoiceModel.step]
          simp [hst, hgt, henv]
        refine ⟨fun hok => ?_, fun e he => ?_⟩
        · rw [hres] at hok; cases hok
        · simp [hres]
      | ok cs =>
        cases hagr : (processAgents ops.information_filter
            ops.information_distorter m.information_transformer m.agents
            (cs.map (fun change =>
              Information.new change.description freshAgentId
                (m.current_time + m.configuration.time_step) 1
                change.change_type))
            (m.current_time + m.configuration.time_step)).1 with
        | error e' =>
          have hres : (ConsumerChoiceModel.step ops m).1 = .error e'
              ∧ (ConsumerChoiceModel.step ops m).2.state = m.state
              ∧ (ConsumerChoiceModel.step ops m).2.current_time
                = m.current_time := by
            rw [ConsumerChoiceModel.step]
            simp [hst, hgt, henv, hagr]
          refine ⟨fun hok => ?_, fun e he => ⟨hres.2.1, hres.2.2⟩⟩
          rw [hres.1] at hok; cases hok
        | ok u =>
          have hu := update_statistics_fields
            ({ m with
                environment := (Environment.update_to_time ops.physical_asset
                  ops.exogenous_process m.environment
                  (m.current_time + m.configuration.time_step)).2,
                information_transformer := (processAgents
                  ops.information_filter ops.information_distorter
                  m.information_transformer m.agents
                  (cs.map (fun change =>
                    Information.new change.description freshAgentId
                      (m.current_time + m.configuration.time_step) 1
                      change.change_type))
                  (m.current_time + m.configuration.time_step)).2,
                current_time :=
                  m.current_time + m.configuration.time_step } :
              ConsumerChoiceModel A C Choice P K N R E F D)
          rw [hst] at hu
          have hres : (ConsumerChoiceModel.step ops m).1 = .ok ()
              ∧ (ConsumerChoiceModel.step ops m).2.current_time
                = m.current_time + m.configuration.time_step := by
            rw [ConsumerChoiceModel.step]
            simp [hst, hgt, henv, hagr, hu.2.1]
          refine ⟨fun _ => ⟨fun _ => hres.2, fun hc => absurd hc hgt⟩,
            fun e he => ?_⟩
          rw [hres.1] at he; cases he
  · have hres := step_not_running ops hst
    refine ⟨fun hok => ?_, fun e he => by simp [hres]⟩
    rw [hres] at hok; cases hok

/-- Counterexample to C2 as stated: on a `Running` model with
`current_time = 0`, `time_step = 1` and `max_simulation_time = 0`, `step()`
returns success, yet the clock afterwards is `0`, not
`current_time + time_step = 1` — the boundary step succeeds without
advancing time. -/
theorem step_success_time_advance_counterexample :
    (testModel .Running 0 1 0).state = ModelState.Running
    ∧ (ConsumerChoiceModel.step unitModelOps (testModel .Running 0 1 0)).1
      = .ok ()
    ∧ (ConsumerChoiceModel.step unitModelOps
        (testModel .Running 0 1 0)).2.current_time
      ≠ (testModel .Running 0 1 0).current_time
        + (testModel .Running 0 1 0).configuration.time_step := by
  have hgt : (testModel .Running 0 1 0).current_time
      + (testModel .Running 0 1 0).configuration.time_step
      > (testModel .Running 0 1 0).configuration.max_simulation_time := by
    norm_num [testModel]
  have hres := step_boundary unitModelOps (m := testModel .Running 0 1 0)
    rfl hgt
  have hf := stop_fields (testModel .Running 0 1 0)
  refine ⟨rfl, by simp [hres], ?_⟩
  rw [hres]
  simp only [hf.2.1]
  norm_num [testModel]

/-- C2 amended. A successful `step()` whose `new_time` does not exceed
`max_simulation_time` sets `current_time` to exactly
`current_time + time_step`; a successful boundary step (where `new_time`
exceeds the horizon and `stop()` is called instead) leaves `current_time`
unchanged; and whenever `time_step ≥ 0`, `step()` never decreases
`current_time` regardless of outcome. -/
theorem step_time_advance_amended (ops : ModelOps A P E F D)
    (m : ConsumerChoiceModel A C Choice P K N R E F D) :
    ((ConsumerChoiceModel.step ops m).1.isOk = true →
      (¬ (m.current_time + m.configuration.time_step
          > m.configuration.max_simulation_time)) →
      (ConsumerChoiceModel.step ops m).2.current_time
        = m.current_time + m.configuration.time_step)
    ∧ ((ConsumerChoiceModel.step ops m).1.isOk = true →
      (m.current_time + m.configuration.time_step
          > m.configuration.max_simulation_time) →
      (ConsumerChoiceModel.step ops m).2.current_time = m.current_time)
    ∧ (0 ≤ m.configuration.time_step →
      m.current_time ≤ (ConsumerChoiceModel.step ops m).2.current_time) := by
  have h := step_state_time ops m
  refine ⟨fun hok => (h.1 hok).1, fun hok => (h.1 hok).2, fun hdt => ?_⟩
  cases hr : (ConsumerChoiceModel.step ops m).1 with
  | error e =>
    rw [(h.2 e hr).2]
  | ok u =>
    have hok : (ConsumerChoiceModel.step ops m).1.isOk = true := by
      simp [hr, Except.isOk, Except.toBool]
    by_cases hgt : m.current_time + m.configuration.time_step
        > m.configuration.max_simulation_time
    · rw [(h.1 hok).2 hgt]
    · rw [(h.1 hok).1 hgt]
      exact le_add_of_nonneg_right hdt

/-- Witness for C2 amended: on the concrete `Running` model with horizon
`10`, the successful step advances the clock from `0` to `0 + 1`. -/
theorem step_time_advance_amended_witness :
    (ConsumerChoiceModel.step unitModelOps
      (testModel .Running 0 1 10)).2.current_time
    = (testModel .Running 0 1 10).current_time
      + (testModel .Running 0 1 10).configuration.time_step := by
  have h := step_time_advance_amended unitModelOps (testModel .Running 0 1 10)
  refine h.1 ?_ ?_
  · simp [ConsumerChoiceModel.step, ConsumerChoiceModel.update_statistics,
      Environment.update_to_time, updatePhysicalAssets,
      runExogenousProcesses, processAgents,
      Transformer.process_information_for_agent, applyFilters, distortAll,
      assocInsert, testModel, Environment.new, Transformer.new, unitModelOps,
      unitPhysicalAssetOps, unitExogenousProcessOps,
      unitInformationFilterOps, unitInformationDistorterOps,
      Except.isOk, Except.toBool]
  · norm_num [testModel]

/-- C3. Whenever `step()` returns an error — the illegal-state guard, an
environment-update failure, or a transformer failure for some agent — the
model's `current_time` and its `ModelState` are exactly as before the call:
in particular the model does not transition to the `Error` state. -/
theorem step_error_leaves_time_and_state (ops : ModelOps A P E F D)
    (m : ConsumerChoiceModel A C Choice P K N R E F D) (e : Error)
    (h : (ConsumerChoiceModel.step ops m).1 = .error e) :
    (ConsumerChoiceModel.step ops m).2.state = m.state
    ∧ (ConsumerChoiceModel.step ops m).2.current_time = m.current_time := by
  exact (step_state_time ops m).2 e h

/-- Witness for C3: on the concrete `Running` model whose only exogenous
process fails, `step()` returns the environment error while the state stays
`Running` (not `Error`) and the clock stays `0`. -/
theorem step_error_leaves_time_and_state_witness :
    (ConsumerChoiceModel.step testModelOps
      (testModelE .Running 0 1 10 [(true, none)])).1
      = .error (.Environment testFailureMsg)
    ∧ (ConsumerChoiceModel.step testModelOps
        (testModelE .Running 0 1 10 [(true, none)])).2.state
      = ModelState.Running
    ∧ (ConsumerChoiceModel.step testModelOps
        (testModelE .Running 0 1 10 [(true, none)])).2.current_time = 0 := by
  have herr : (ConsumerChoiceModel.step testModelOps
      (testModelE .Running 0 1 10 [(true, none)])).1
      = .error (.Environment testFailureMsg) := by
    simp [ConsumerChoiceModel.step, Environment.update_to_time,
      updatePhysicalAssets, runExogenousProcesses, testModelE,
      testModelOps, testExogenousProcessOps, unitPhysicalAssetOps,
      Environment.new]
  have h := step_error_leaves_time_and_state testModelOps
    (testModelE .Running 0 1 10 [(true, none)])
    (.Environment testFailureMsg) herr
  exact ⟨herr, h.1, h.2⟩

lemma update_statistics_state (m : ConsumerChoiceModel A C Choice P K N R E F D) :
    m.update_statistics.state = m.state :=
  (update_statistics_fields m).1

lemma update_statistics_time (m : ConsumerChoiceModel A C Choice P K N R E F D) :
    m.update_statistics.current_time = m.current_time :=
  (update_statistics_fields m).2.1

lemma update_statistics_config (m : ConsumerChoiceModel A C Choice P K N R E F D) :
    m.update_statistics.configuration = m.configuration :=
  (update_statistics_fields m).2.2.1

lemma update_statistics_agents (m : ConsumerChoiceModel A C Choice P K N R E F D) :
    m.update_statistics.agents = m.agents :=
  (update_statistics_fields m).2.2.2.1

lemma applyFilters_ok (fops : InformationFilterOps F)
    (hF : ∀ f info aid ctx,
      (fops.filter_information f info aid ctx).isOk = true) :
    ∀ (filters : List F) (info : List Information) (aid : AgentId)
      (ctx : FilterContext),
      ∃ out, applyFilters fops filters info aid ctx = .ok out
  | [], info, aid, ctx => ⟨info, rfl⟩
  | f :: rest, info, aid, ctx => by
    obtain ⟨out1, h1⟩ := (except_isOk_iff _).mp (hF f info aid ctx)
    obtain ⟨out, hrec⟩ := applyFilters_ok fops hF rest out1 aid ctx
    exact ⟨out, by simp [applyFilters, h1, hrec]⟩

lemma applyDistorters_ok (dops : InformationDistorterOps D)
    (hD : ∀ d i aid ctx,
      (dops.distort_information d i aid ctx).isOk = true) :
    ∀ (distorters : List D) (i : Information) (aid : AgentId)
      (ctx : DistortionContext),
      ∃ out, applyDistorters dops distorters i aid ctx = .ok out
  | [], i, aid, ctx => ⟨i, rfl⟩
  | d :: rest, i, aid, ctx => by
    obtain ⟨j, h1⟩ := (except_isOk_iff _).mp (hD d i aid ctx)
    obtain ⟨out, hrec⟩ := applyDistorters_ok dops hD rest j aid ctx
    exact ⟨out, by simp [applyDistorters, h1, hrec]⟩

lemma distortAll_ok (dops : InformationDistorterOps D)
    (hD : ∀ d i aid ctx,
      (dops.distort_information d i aid ctx).isOk = true) :
    ∀ (distorters : List D) (items : List Information) (aid : AgentId)
      (ctx : DistortionContext),
      ∃ out, distortAll dops distorters items aid ctx = .ok out
  | ds, [], aid, ctx => ⟨[], rfl⟩
  | ds, i :: rest, aid, ctx => by
    obtain ⟨j, h1⟩ := applyDistorters_ok dops hD ds i aid ctx
    obtain ⟨out, hrec⟩ := distortAll_ok dops hD ds rest aid ctx
    exact ⟨j :: out, by simp [distortAll, h1, hrec]⟩

lemma process_information_for_agent_ok (fops : InformationFilterOps F)
    (dops : InformationDistorterOps D)
    (hF : ∀ f info aid ctx,
      (fops.filter_information f info aid ctx).isOk = true)
    (hD : ∀ d i aid ctx,
      (dops.distort_information d i aid ctx).isOk = true)
    (t : Transformer F D) (aid : AgentId) (raw : List Information)
    (fctx : FilterContext) (dctx : DistortionContext) :
    ∃ out, Transformer.process_information_for_agent fops dops t aid raw
        fctx dctx
      = .ok (out,
          { t with
            information_cache := assocInsert t.information_cache aid out }) := by
  obtain ⟨mid, h1⟩ := applyFilters_ok fops hF t.filters raw aid fctx
  obtain ⟨out, h2⟩ := distortAll_ok dops hD t.distorters mid aid dctx
  exact ⟨out, by simp [Transformer.process_information_for_agent, h1, h2]⟩

lemma processAgents_ok (fops : InformationFilterOps F)
    (dops : InformationDistorterOps D)
    (hF : ∀ f info aid ctx,
      (fops.filter_information f info aid ctx).isOk = true)
    (hD : ∀ d i aid ctx,
      (dops.distort_information d i aid ctx).isOk = true) :
    ∀ (agents : List (AgentId × ConsumerAgent A C Choice))
      (t : Transformer F D) (infos : List Information)
      (nt : SimulationTime),
      ∃ t', processAgents fops dops t agents infos nt = (.ok (), t')
  | [], t, infos, nt => ⟨t, rfl⟩
  | (aid, ag) :: rest, t, infos, nt => by
    obtain ⟨out, hp⟩ := process_information_for_agent_ok fops dops hF hD t
      aid infos (FilterContext.new nt) (DistortionContext.new nt)
    obtain ⟨t', hrec⟩ := processAgents_ok fops dops hF hD rest
      { t with information_cache := assocInsert t.information_cache aid out }
      infos nt
    exact ⟨t', by simp [processAgents, hp, hrec]⟩

lemma updatePhysicalAssets_ok (pops : PhysicalAssetOps P)
    (hP : ∀ a t, (pops.update_state a t).isOk = true) :
    ∀ (l : List (AssetId × P)) (nt : SimulationTime),
      (updatePhysicalAssets pops nt l).1 = .ok ()
  | [], nt => rfl
  | (id, a) :: rest, nt => by
    obtain ⟨a', h⟩ := (except_isOk_iff _).mp (hP a nt)
    simp [updatePhysicalAssets, h, updatePhysicalAssets_ok pops hP rest nt]

lemma runExogenousProcesses_ok (eops : ExogenousProcessOps E)
    (hE : ∀ p t, (eops.update_environment p t).isOk = true) :
    ∀ (l : List E) (nt : SimulationTime),
      ∃ cs, runExogenousProcesses eops nt l = .ok cs
  | [], nt => ⟨[], rfl⟩
  | p :: rest, nt => by
    obtain ⟨cs, hrec⟩ := runExogenousProcesses_ok eops hE rest nt
    by_cases h : eops.is_active p nt
    · obtain ⟨cp, hp⟩ := (except_isOk_iff _).mp (hE p nt)
      exact ⟨cp ++ cs, by simp [runExogenousProcesses, h, hp, hrec]⟩
    · exact ⟨cs, by simp [runExogenousProcesses, h, hrec]⟩

lemma update_to_time_ok (pops : PhysicalAssetOps P)
    (eops : ExogenousProcessOps E)
    (hP : ∀ a t, (pops.update_state a t).isOk = true)
    (hE : ∀ p t, (eops.update_environment p t).isOk = true)
    (env : Environment P K N R E) (nt : SimulationTime) :
    ∃ cs, (Environment.update_to_time pops eops env nt).1 = .ok cs := by
  obtain ⟨cs, hrp⟩ := runExogenousProcesses_ok eops hE
    env.exogenous_processes nt
  exact ⟨cs, by
    simp [Environment.update_to_time,
      updatePhysicalAssets_ok pops hP env.physical_assets nt, hrp]⟩

lemma step_pipeline_advances (ops : ModelOps A P E F D)
    (m : ConsumerChoiceModel A C Choice P K N R E F D)
    (hst : m.state = ModelState.Running)
    (hle : ¬ (m.current_time + m.configuration.time_step
      > m.configuration.max_simulation_time))
    (hP : ∀ a t, (ops.physical_asset.update_state a t).isOk = true)
    (hE : ∀ p t, (ops.exogenous_process.update_environment p t).isOk = true)
    (hF : ∀ f info aid ctx,
      (ops.information_filter.filter_information f info aid ctx).isOk = true)
    (hD : ∀ d i aid ctx,
      (ops.information_distorter.distort_information d i aid ctx).isOk
        = true) :
    (ConsumerChoiceModel.step ops m).1 = .ok ()
    ∧ (ConsumerChoiceModel.step ops m).2.state = ModelState.Running
    ∧ (ConsumerChoiceModel.step ops m).2.current_time
      = m.current_time + m.configuration.time_step
    ∧ (ConsumerChoiceModel.step ops m).2.configuration = m.configuration
    ∧ (ConsumerChoiceModel.step ops m).2.agents = m.agents := by
  obtain ⟨cs, henv⟩ := update_to_time_ok ops.physical_asset
    ops.exogenous_process hP hE m.environment
    (m.current_time + m.configuration.time_step)
  obtain ⟨t', hagr⟩ := processAgents_ok ops.information_filter
    ops.information_distorter hF hD m.agents m.information_transformer
    (cs.map (fun change =>
      Information.new change.description freshAgentId
        (m.current_time + m.configuration.time_step) 1 change.change_type))
    (m.current_time + m.configuration.time_step)
  rw [ConsumerChoiceModel.step]
  simp [hst, hle, henv, hagr, update_statistics_state,
    update_statistics_time, update_statistics_config,
    update_statistics_agents]

lemma start_ok {m : ConsumerChoiceModel A C Choice P K N R E F D}
    (hst : m.state = ModelState.Initialized) (hag : m.agents ≠ []) :
    (ConsumerChoiceModel.start m).1 = .ok ()
    ∧ (ConsumerChoiceModel.start m).2.state = ModelState.Running
    ∧ (ConsumerChoiceModel.start m).2.current_time = 0
    ∧ (ConsumerChoiceModel.start m).2.configuration = m.configuration
    ∧ (ConsumerChoiceModel.start m).2.agents = m.agents := by
  have hemp : m.agents.isEmpty = false := by
    cases hl : m.agents with
    | nil => exact absurd hl hag
    | cons a rest => simp
  by_cases hlog : m.configuration.event_logging_enabled <;>
    simp [ConsumerChoiceModel.start, hst, hemp, hlog]

lemma runLoop_succ (ops : ModelOps A P E F D) (n : Nat)
    (m : ConsumerChoiceModel A C Choice P K N R E F D) :
    ConsumerChoiceModel.runLoop ops (n + 1) m
      = if m.state = ModelState.Running then
          match (m.step ops).1 with
          | .error e => some (.error e, (m.step ops).2)
          | .ok _ => ConsumerChoiceModel.runLoop ops n (m.step ops).2
        else some (.ok (), m) := rfl

lemma runLoop_completes (ops : ModelOps A P E F D)
    (hP : ∀ a t, (ops.physical_asset.update_state a t).isOk = true)
    (hE : ∀ p t, (ops.exogenous_process.update_environment p t).isOk = true)
    (hF : ∀ f info aid ctx,
      (ops.information_filter.filter_information f info aid ctx).isOk = true)
    (hD : ∀ d i aid ctx,
      (ops.information_distorter.distort_information d i aid ctx).isOk
        = true) :
    ∀ (n : Nat) (m : ConsumerChoiceModel A C Choice P K N R E F D),
      m.state = ModelState.Running →
      0 < m.configuration.time_step →
      m.current_time + m.configuration.time_step * (n : Rat)
        ≤ m.configuration.max_simulation_time →
      m.configuration.max_simulation_time
        < m.current_time + m.configuration.time_step * ((n : Rat) + 1) →
      ∃ m', ConsumerChoiceModel.runLoop ops (n + 2) m = some (.ok (), m')
        ∧ m'.state = ModelState.Completed
        ∧ m'.current_time
          = m.current_time + m.configuration.time_step * (n : Rat)
  | 0, m => by
    intro hst hdt hle hgt
    have hgt' : m.current_time + m.configuration.time_step
        > m.configuration.max_simulation_time := by
      have := hgt
      rw [Nat.cast_zero, zero_add, mul_one] at this
      exact this
    have hsb := step_boundary ops hst hgt'
    have hf := stop_fields m
    have hcompleted : (ConsumerChoiceModel.stop m).2.state
        = ModelState.Completed :=
      hf.2.2.2.2 (by rw [hst]; intro hc; cases hc)
    refine ⟨(ConsumerChoiceModel.stop m).2, ?_, hcompleted, ?_⟩
    · have h1 : ConsumerChoiceModel.runLoop ops (0 + 2) m
          = ConsumerChoiceModel.runLoop ops 1 (ConsumerChoiceModel.stop m).2 := by
        rw [show (0 + 2 : Nat) = 1 + 1 from rfl, runLoop_succ]
        simp [hst, hsb]
      rw [h1, show (1 : Nat) = 0 + 1 from rfl, runLoop_succ]
      simp [hcompleted]
    · rw [hf.2.1, Nat.cast_zero, mul_zero, add_zero]
  | n + 1, m => by
    intro hst hdt hle hgt
    have hone : (1 : Rat) ≤ ((n : Rat) + 1) := by
      have : (0 : Rat) ≤ (n : Rat) := Nat.cast_nonneg n
      linarith
    have hstep_le : ¬ (m.current_time + m.configuration.time_step
        > m.configuration.max_simulation_time) := by
      have hdtle : m.configuration.time_step
          ≤ m.configuration.time_step * ((n : Rat) + 1) := by
        calc m.configuration.time_step
            = m.configuration.time_step * 1 := (mul_one _).symm
          _ ≤ m.configuration.time_step * ((n : Rat) + 1) :=
              mul_le_mul_of_nonneg_left hone hdt.le
      have : m.current_time + m.configuration.time_step
          ≤ m.configuration.max_simulation_time := by
        have hcast : ((n + 1 : Nat) : Rat) = (n : Rat) + 1 := by push_cast; ring
        rw [hcast] at hle
        linarith
      exact not_lt.mpr this
    have hsp := step_pipeline_advances ops m hst hstep_le hP hE hF hD
    obtain ⟨m', hloop, hstate', htime'⟩ :=
      runLoop_completes ops hP hE hF hD n (m.step ops).2 hsp.2.1
        (by rw [hsp.2.2.2.1]; exact hdt)
        (by
          rw [hsp.2.2.2.1, hsp.2.2.1]
          have hcast : ((n + 1 : Nat) : Rat) = (n : Rat) + 1 := by
            push_cast; ring
          rw [hcast] at hle
          calc m.current_time + m.configuration.time_step
                + m.configuration.time_step * (n : Rat)
              = m.current_time
                + m.configuration.time_step * ((n : Rat) + 1) := by ring
            _ ≤ m.configuration.max_simulation_time := hle)
        (by
          rw [hsp.2.2.2.1, hsp.2.2.1]
          have hcast : ((n + 1 : Nat) : Rat) = (n : Rat) + 1 := by
            push_cast; ring
          rw [hcast] at hgt
          calc m.configuration.max_simulation_time
              < m.current_time
                + m.configuration.time_step * ((n : Rat) + 1 + 1) := hgt
            _ = m.current_time + m.configuration.time_step
                + m.configuration.time_step * ((n : Rat) + 1) := by ring)
    refine ⟨m', ?_, hstate', ?_⟩
    · rw [show (n + 1 + 2 : Nat) = (n + 2) + 1 from rfl, runLoop_succ]
      simp [hst, hsp.1, hloop]
    · rw [htime', hsp.2.2.1, hsp.2.2.2.1]
      have hcast : ((n + 1 : Nat) : Rat) = (n : Rat) + 1 := by push_cast; ring
      rw [hcast]
      ring

/-- C1. On a model in `Initialized` state with at least one agent,
`time_step = dt > 0` and `max_simulation_time = T ≥ 0`, and components whose
updates all succeed, `run()` terminates — within
`⌊T/dt⌋ + 2` loop iterations — in state `Completed`, and the final clock is
`dt * ⌊T/dt⌋`: since every executed tick advances the clock from `0` by
exactly `dt`, exactly `⌊T/dt⌋` ticks ran (the first step with
`new_time > T` calls `stop()` instead of executing); `⌊T/dt⌋` is
`ceil(T/dt)` when `dt` divides `T`, as in the `T=10, dt=1` case (10 ticks),
and the floor in the `T=10, dt=3` case (3 ticks). -/
theorem run_performs_floor_ticks_then_completes (ops : ModelOps A P E F D)
    (m : ConsumerChoiceModel A C Choice P K N R E F D)
    (hstate : m.state = ModelState.Initialized)
    (hagents : m.agents ≠ [])
    (hdt : 0 < m.configuration.time_step)
    (hT : 0 ≤ m.configuration.max_simulation_time)
    (hP : ∀ a t, (ops.physical_asset.update_state a t).isOk = true)
    (hE : ∀ p t, (ops.exogenous_process.update_environment p t).isOk = true)
    (hF : ∀ f info aid ctx,
      (ops.information_filter.filter_information f info aid ctx).isOk = true)
    (hD : ∀ d i aid ctx,
      (ops.information_distorter.distort_information d i aid ctx).isOk
        = true) :
    ∃ m', ConsumerChoiceModel.run ops
        ((⌊m.configuration.max_simulation_time
            / m.configuration.time_step⌋.toNat) + 2) m
      = some (.ok (), m')
    ∧ m'.state = ModelState.Completed
    ∧ m'.current_time
      = m.configuration.time_step
        * ((⌊m.configuration.max_simulation_time
            / m.configuration.time_step⌋.toNat : Nat) : Rat) := by
  have hs := start_ok hstate hagents
  have hKnn : (0 : Int) ≤ ⌊m.configuration.max_simulation_time
      / m.configuration.time_step⌋ :=
    Int.floor_nonneg.mpr (div_nonneg hT hdt.le)
  have hcast : ((⌊m.configuration.max_simulation_time
      / m.configuration.time_step⌋.toNat : Nat) : Rat)
      = ((⌊m.configuration.max_simulation_time
          / m.configuration.time_step⌋ : Int) : Rat) := by
    exact_mod_cast congrArg (fun z : Int => (z : Rat))
      (Int.toNat_of_nonneg hKnn)
  have hTd : m.configuration.time_step
      * (m.configuration.max_simulation_time / m.configuration.time_step)
      = m.configuration.max_simulation_time := by
    field_simp
  have h1 : ((⌊m.configuration.max_simulation_time
      / m.configuration.time_step⌋ : Int) : Rat)
      ≤ m.configuration.max_simulation_time / m.configuration.time_step :=
    Int.floor_le _
  have h2 : m.configuration.max_simulation_time / m.configuration.time_step
      < ((⌊m.configuration.max_simulation_time
          / m.configuration.time_step⌋ : Int) : Rat) + 1 :=
    Int.lt_floor_add_one _
  have hle0 : m.configuration.time_step
      * ((⌊m.configuration.max_simulation_time
          / m.configuration.time_step⌋ : Int) : Rat)
      ≤ m.configuration.max_simulation_time := by
    have := mul_le_mul_of_nonneg_left h1 hdt.le
    rw [hTd] at this
    exact this
  have hgt0 : m.configuration.max_simulation_time
      < m.configuration.time_step
        * (((⌊m.configuration.max_simulation_time
            / m.configuration.time_step⌋ : Int) : Rat) + 1) := by
    have := (mul_lt_mul_left hdt).mpr h2
    rw [hTd] at this
    exact this
  obtain ⟨m', hloop, hstate', htime'⟩ :=
    runLoop_completes ops hP hE hF hD
      (⌊m.configuration.max_simulation_time
        / m.configuration.time_step⌋.toNat)
      (ConsumerChoiceModel.start m).2 hs.2.1
      (by rw [hs.2.2.2.1]; exact hdt)
      (by rw [hs.2.2.1, hs.2.2.2.1, hcast, zero_add]; exact hle0)
      (by rw [hs.2.2.1, hs.2.2.2.1, hcast, zero_add]; exact hgt0)
  refine ⟨m', ?_, hstate', ?_⟩
  · rw [ConsumerChoiceModel.run]
    simp only [hs.1]
    exact hloop
  · rw [htime', hs.2.2.1, hs.2.2.2.1, zero_add]

/-- Witness for C1 at the claim's own `T = 10, dt = 3` example: the run
terminates with fuel `⌊10/3⌋ + 2 = 5`, completed, with final clock
`3 * 3 = 9` — exactly 3 executed ticks. -/
theorem run_performs_floor_ticks_then_completes_witness :
    ∃ m', ConsumerChoiceModel.run unitModelOps 5
        (testModel .Initialized 0 3 10)
      = some (.ok (), m')
    ∧ m'.state = ModelState.Completed
    ∧ m'.current_time = 9 := by
  have h := run_performs_floor_ticks_then_completes unitModelOps
    (testModel .Initialized 0 3 10) rfl (by simp [testModel])
    (by norm_num [testModel]) (by norm_num [testModel])
    (fun a t => rfl) (fun p t => rfl) (fun f i a c => rfl)
    (fun d i a c => rfl)
  rw [show (testModel .Initialized 0 3 10).configuration.max_simulation_time
      = 10 from rfl,
    show (testModel .Initialized 0 3 10).configuration.time_step
      = 3 from rfl] at h
  have hfl : (⌊(10 : Rat) / 3⌋).toNat = 3 := by
    have h3 : ⌊(10 : Rat) / 3⌋ = 3 := by
      rw [Int.floor_eq_iff]
      norm_num
    rw [h3]
    rfl
  rw [hfl] at h
  obtain ⟨m', hrun, hstate, htime⟩ := h
  exact ⟨m', hrun, hstate, htime.trans (by norm_num)⟩

lemma runLoop_zero_dt (ops : ModelOps A P E F D)
    (hP : ∀ a t, (ops.physical_asset.update_state a t).isOk = true)
    (hE : ∀ p t, (ops.exogenous_process.update_environment p t).isOk = true)
    (hF : ∀ f info aid ctx,
      (ops.information_filter.filter_information f info aid ctx).isOk = true)
    (hD : ∀ d i aid ctx,
      (ops.information_distorter.distort_information d i aid ctx).isOk
        = true) :
    ∀ (fuel : Nat) (m : ConsumerChoiceModel A C Choice P K N R E F D),
      m.state = ModelState.Running →
      m.configuration.time_step = 0 →
      m.current_time ≤ m.configuration.max_simulation_time →
      ConsumerChoiceModel.runLoop ops fuel m = none
  | 0, m => fun _ _ _ => rfl
  | fuel + 1, m => by
    intro hst hdt hle
    have hle' : ¬ (m.current_time + m.configuration.time_step
        > m.configuration.max_simulation_time) := by
      rw [hdt, add_zero]
      exact not_lt.mpr hle
    have hsp := step_pipeline_advances ops m hst hle' hP hE hF hD
    rw [runLoop_succ]
    simp only [hst, if_true, hsp.1]
    exact runLoop_zero_dt ops hP hE hF hD fuel (m.step ops).2 hsp.2.1
      (by rw [hsp.2.2.2.1]; exact hdt)
      (by rw [hsp.2.2.1, hsp.2.2.2.1, hdt, add_zero]; exact hle)

/-- C10. `ModelConfiguration::with_time_step` accepts `0` with no
validation; on a `Running` model with `time_step = 0` whose clock has not
passed the horizon, every `step()` (with succeeding components) returns
success with `new_time = current_time`, leaving the clock and the `Running`
state fixed — so the `run()` loop never terminates: it exhausts every
iteration budget, both from a `Running` model and for a full `run()` from
`Initialized`. -/
theorem zero_time_step_diverges (ops : ModelOps A P E F D)
    (c : ModelConfiguration)
    (m : ConsumerChoiceModel A C Choice P K N R E F D)
    (hdt : m.configuration.time_step = 0)
    (hP : ∀ a t, (ops.physical_asset.update_state a t).isOk = true)
    (hE : ∀ p t, (ops.exogenous_process.update_environment p t).isOk = true)
    (hF : ∀ f info aid ctx,
      (ops.information_filter.filter_information f info aid ctx).isOk = true)
    (hD : ∀ d i aid ctx,
      (ops.information_distorter.distort_information d i aid ctx).isOk
        = true) :
    ((ModelConfiguration.with_time_step c 0).time_step = 0)
    ∧ (m.state = ModelState.Running →
        m.current_time ≤ m.configuration.max_simulation_time →
        ((ConsumerChoiceModel.step ops m).1 = .ok ()
         ∧ (ConsumerChoiceModel.step ops m).2.current_time = m.current_time
         ∧ (ConsumerChoiceModel.step ops m).2.state = ModelState.Running))
    ∧ (m.state = ModelState.Running →
        m.current_time ≤ m.configuration.max_simulation_time →
        ∀ fuel, ConsumerChoiceModel.runLoop ops fuel m = none)
    ∧ (m.state = ModelState.Initialized → m.agents ≠ [] →
        0 ≤ m.configuration.max_simulation_time →
        ∀ fuel, ConsumerChoiceModel.run ops fuel m = none) := by
  refine ⟨rfl, fun hst hle => ?_, fun hst hle fuel => ?_, fun hini hag hT fuel => ?_⟩
  · have hle' : ¬ (m.current_time + m.configuration.time_step
        > m.configuration.max_simulation_time) := by
      rw [hdt, add_zero]
      exact not_lt.mpr hle
    have hsp := step_pipeline_advances ops m hst hle' hP hE hF hD
    exact ⟨hsp.1, by rw [hsp.2.2.1, hdt, add_zero], hsp.2.1⟩
  · exact runLoop_zero_dt ops hP hE hF hD fuel m hst hdt hle
  · have hs := start_ok hini hag
    rw [ConsumerChoiceModel.run]
    simp only [hs.1]
    exact runLoop_zero_dt ops hP hE hF hD fuel (ConsumerChoiceModel.start m).2
      hs.2.1 (by rw [hs.2.2.2.1]; exact hdt)
      (by rw [hs.2.2.1, hs.2.2.2.1]; exact hT)

/-- Witness for C10: on the concrete one-agent model with `time_step = 0`
and horizon `10`, `with_time_step` stores the `0`, and a full `run()` from
`Initialized` exhausts an iteration budget of `5` (and the conjuncts are
discharged at a concrete model). -/
theorem zero_time_step_diverges_witness :
    ((ModelConfiguration.with_time_step
        (ModelConfiguration.new testName testName) 0).time_step = 0)
    ∧ ConsumerChoiceModel.run unitModelOps 5
        (testModel .Initialized 0 0 10) = none := by
  have h := zero_time_step_diverges unitModelOps
    (ModelConfiguration.new testName testName)
    (testModel .Initialized 0 0 10) rfl
    (fun a t => rfl) (fun p t => rfl) (fun f i a c => rfl)
    (fun d i a c => rfl)
  exact ⟨h.1, h.2.2.2 rfl (by simp [testModel]) (by norm_num [testModel]) 5⟩
